import Mathlib

/-!
Verification of the fetch/filter/checkpoint pipeline of
`business_app15112025.py` (class `BoomerBusinessFinder`).

The Python program works on parsed JSON payloads (nested dicts/lists), so we
first give a shallow embedding of the JSON values it manipulates, together
with the exact Python semantics of the operations the program applies to
them: truthiness (`if not x`), the `in` operator (`k in x`, which is key
membership on a dict, element membership on a list, substring test on a
string, and a `TypeError` otherwise), subscription (`x[k]`, a `KeyError` /
`TypeError` when it fails), `dict.get` (an `AttributeError` on a non-dict),
iteration, and `>=` comparison against an arbitrary JSON value.  Operations
that can raise are modelled in `Except Unit`, an `error` being an uncaught
Python exception.

JSON numbers are modelled as `Int` (the payload fields the program reads
are integral: entry counts, page counts, status fields).
-/

inductive Json where
  | null
  | bool (b : Bool)
  | num (n : Int)
  | str (s : String)
  | arr (xs : List Json)
  | obj (kvs : List (String × Json))

/-- Python truthiness of a JSON value (`bool(x)`). -/
def truthy : Json → Bool
  | .null => false
  | .bool b => b
  | .num n => n != 0
  | .str s => s != ""
  | .arr xs => xs.length != 0
  | .obj kvs => kvs.length != 0

/-- Python truthiness of a value that may be `None` (we use `Option.none`
for Python `None` at the top level of optional results). -/
def optTruthy : Option Json → Bool
  | none => false
  | some j => truthy j

/-- Whether the character list `p` is an initial segment of `h`
(helper for Python's substring test). -/
def leadMatch : List Char → List Char → Bool
  | [], _ => true
  | _ :: _, [] => false
  | p :: ps, h :: hs => p == h && leadMatch ps hs

/-- Whether `pat` occurs as a contiguous segment of `hay`. -/
def subAt (pat : List Char) : List Char → Bool
  | [] => leadMatch pat []
  | h :: hs => leadMatch pat (h :: hs) || subAt pat hs

/-- Python `pat in hay` on strings (substring test). -/
def strHasSub (hay pat : String) : Bool := subAt pat.toList hay.toList

/-- Python `==` between a JSON value and a string (used by list
membership): only a string compares equal to a string. -/
def jstrEq (j : Json) (k : String) : Bool :=
  match j with
  | .str s => s == k
  | _ => false

/-- Python `k in j` for a string `k`: key membership on a dict, element
membership on a list, substring test on a string, `TypeError` otherwise. -/
def pyContains (j : Json) (k : String) : Except Unit Bool :=
  match j with
  | .obj kvs => .ok (kvs.lookup k).isSome
  | .arr xs => .ok (xs.any (fun e => jstrEq e k))
  | .str s => .ok (strHasSub s k)
  | _ => .error ()

/-- Python `j[k]` for a string `k`: dict subscription (`KeyError` when the
key is absent), `TypeError` on anything else. -/
def pyIndex (j : Json) (k : String) : Except Unit Json :=
  match j with
  | .obj kvs =>
    match kvs.lookup k with
    | some v => .ok v
    | none => .error ()
  | _ => .error ()

/-- Python `j.get(k, d)`: only dicts have `.get`; anything else raises
`AttributeError`. -/
def pyGetD (j : Json) (k : String) (d : Json) : Except Unit Json :=
  match j with
  | .obj kvs => .ok ((kvs.lookup k).getD d)
  | _ => .error ()

/-- Python iteration `for x in j`: a list yields its elements, a dict its
keys, a string its characters, anything else raises `TypeError`. -/
def pyIter : Json → Except Unit (List Json)
  | .arr xs => .ok xs
  | .obj kvs => .ok (kvs.map (fun kv => Json.str kv.1))
  | .str s => .ok (s.toList.map (fun c => Json.str (String.mk [c])))
  | _ => .error ()

/-- Python `p >= j` for a natural `p` and a JSON value `j` (`bool` counts
as 0/1, any non-number raises `TypeError`). -/
def pyGeNum (p : Nat) (j : Json) : Except Unit Bool :=
  match j with
  | .num n => .ok (decide ((p : Int) ≥ n))
  | .bool b => .ok (decide ((p : Int) ≥ (if b then 1 else 0)))
  | _ => .error ()

/-!
## Stage A classifier: `has_financial_data`

The traversal calls it on the result of a detail fetch (`None` on failure,
otherwise the `results.company` payload).  It collects, in insertion
order, the keys among `financials`, `accounts`, `latest_accounts`,
`financial_summary` whose value is present and truthy, and reports whether
any was found.
-/

/-- One `if k in cd and cd[k]: financial_data[k] = cd[k]` step of
`has_financial_data`. -/
def addKey (j : Json) (k : String) (acc : List (String × Json)) :
    Except Unit (List (String × Json)) := do
  let c ← pyContains j k
  if c then do
    let v ← pyIndex j k
    if truthy v then pure (acc ++ [(k, v)]) else pure acc
  else pure acc

/-- `BoomerBusinessFinder.has_financial_data` (source lines 216-251). -/
def has_financial_data (cd : Option Json) :
    Except Unit (Bool × Option (List (String × Json))) :=
  if optTruthy cd = false then pure (false, none)
  else
    match cd with
    | none => pure (false, none)
    | some j => do
      let fd1 ← addKey j "financials" []
      let fd2 ← addKey j "accounts" fd1
      let fd3 ← addKey j "latest_accounts" fd2
      let fd4 ← addKey j "financial_summary" fd3
      pure (decide (0 < fd4.length), if 0 < fd4.length then some fd4 else none)

/-!
## Stage B classifier: `has_balance_sheet_data`
-/

structure AssetInfo where
  has_current_assets : Bool
  has_fixed_assets : Bool
  current_assets_entries : Nat
  fixed_assets_entries : Nat
deriving DecidableEq

/-- The empty `asset_info` dict the function starts from. -/
def AssetInfo.init : AssetInfo := ⟨false, false, 0, 0⟩

/-- The qualification test the source applies to an asset value:
`ca is not None and isinstance(ca, list) and len(ca) > 0`; returns the
length when it qualifies. -/
def qualList : Json → Option Nat
  | .arr xs => if 0 < xs.length then some xs.length else none
  | _ => none

/-- Scan of the `financial_summary` section (source lines 275-292):
direct `in`/`[]` access, entry counts are *assigned* (not maxed). -/
def scanFS (fs : Json) (ai : AssetInfo) : Except Unit AssetInfo := do
  let c ← pyContains fs "current_assets"
  let ai1 ←
    if c then do
      let ca ← pyIndex fs "current_assets"
      match qualList ca with
      | some n =>
        pure { ai with has_current_assets := true, current_assets_entries := n }
      | none => pure ai
    else pure ai
  let c2 ← pyContains fs "fixed_assets"
  if c2 then do
    let fa ← pyIndex fs "fixed_assets"
    match qualList fa with
    | some n =>
      pure { ai1 with has_fixed_assets := true, fixed_assets_entries := n }
    | none => pure ai1
  else pure ai1

/-- Scan of one dict item inside a list-shaped section (source lines
301-321): entry counts are combined with `max`. -/
def scanItemMax (item : Json) (ai : AssetInfo) : AssetInfo :=
  match item with
  | .obj kvs =>
    let ai1 :=
      match kvs.lookup "current_assets" with
      | some ca =>
        match qualList ca with
        | some n =>
          { ai with has_current_assets := true,
                    current_assets_entries := max ai.current_assets_entries n }
        | none => ai
      | none => ai
    match kvs.lookup "fixed_assets" with
    | some fa =>
      match qualList fa with
      | some n =>
        { ai1 with has_fixed_assets := true,
                   fixed_assets_entries := max ai1.fixed_assets_entries n }
      | none => ai1
    | none => ai1
  | _ => ai

/-- Scan of a mapping-shaped section (source lines 324-337): entry counts
are *assigned*, overwriting whatever was recorded before. -/
def scanDictAssign (kvs : List (String × Json)) (ai : AssetInfo) : AssetInfo :=
  let ai1 :=
    match kvs.lookup "current_assets" with
    | some ca =>
      match qualList ca with
      | some n =>
        { ai with has_current_assets := true, current_assets_entries := n }
      | none => ai
    | none => ai
  match kvs.lookup "fixed_assets" with
  | some fa =>
    match qualList fa with
    | some n =>
      { ai1 with has_fixed_assets := true, fixed_assets_entries := n }
    | none => ai1
  | none => ai1

/-- Dispatch on the shape of a section under `accounts` /
`latest_accounts` / `financials` (source lines 300-337): a list is scanned
item by item (non-dict items skipped), a dict directly, anything else is
silently ignored. -/
def scanSection (sec : Json) (ai : AssetInfo) : AssetInfo :=
  match sec with
  | .arr xs => xs.foldl (fun a it => scanItemMax it a) ai
  | .obj kvs => scanDictAssign kvs ai
  | _ => ai

/-- `if key in financial_data and financial_data[key]:` guard plus section
scan, for one of the three keys (source lines 295-337). -/
def scanKey (kvs : List (String × Json)) (k : String) (ai : AssetInfo) :
    AssetInfo :=
  match kvs.lookup k with
  | some v => if truthy v then scanSection v ai else ai
  | none => ai

/-- `BoomerBusinessFinder.has_balance_sheet_data` (source lines 253-342).
The input is the `financial_data` dict produced by `has_financial_data`
(or Python `None`). -/
def has_balance_sheet_data (fd : Option (List (String × Json))) :
    Except Unit (Bool × Option AssetInfo) :=
  match fd with
  | none => pure (false, none)
  | some kvs =>
    if kvs.length = 0 then pure (false, none)
    else do
      let ai1 ←
        match kvs.lookup "financial_summary" with
        | some fs => scanFS fs AssetInfo.init
        | none => pure AssetInfo.init
      let ai2 := scanKey kvs "accounts" ai1
      let ai3 := scanKey kvs "latest_accounts" ai2
      let ai4 := scanKey kvs "financials" ai3
      let b := ai4.has_current_assets || ai4.has_fixed_assets
      pure (b, if b then some ai4 else none)

/-!
## Analysis-side description of the balance-sheet scan

`scannedSections` lists the period sections the source actually subjects
to the `current_assets` / `fixed_assets` test: the `financial_summary`
value (accessed directly), and for each of `accounts`, `latest_accounts`,
`financials` whose value is present and truthy, the list items (for a
list-shaped section) or the mapping itself.  Values of other shapes never
qualify (`objQualLen` is `none` on them), so including them verbatim in
the list is harmless and keeps the definitions small.
-/

/-- Length of the qualifying `current_assets` list of a section, when the
section is a mapping holding one. -/
def objQualLenC (sec : Json) : Option Nat :=
  match sec with
  | .obj kvs => (kvs.lookup "current_assets").bind qualList
  | _ => none

/-- Length of the qualifying `fixed_assets` list of a section. -/
def objQualLenF (sec : Json) : Option Nat :=
  match sec with
  | .obj kvs => (kvs.lookup "fixed_assets").bind qualList
  | _ => none

/-- Qualifying `current_assets` length, 0 when none qualifies. -/
def qLenC (sec : Json) : Nat := (objQualLenC sec).getD 0

/-- Qualifying `fixed_assets` length, 0 when none qualifies. -/
def qLenF (sec : Json) : Nat := (objQualLenF sec).getD 0

/-- The period sections inspected inside one list- or mapping-shaped
value. -/
def sectionItems (v : Json) : List Json :=
  match v with
  | .arr xs => xs
  | .obj _ => [v]
  | _ => []

/-- The sections contributed by one of the keys `accounts`,
`latest_accounts`, `financials`. -/
def sectionsOf (kvs : List (String × Json)) (k : String) : List Json :=
  match kvs.lookup k with
  | some v => if truthy v then sectionItems v else []
  | none => []

/-- The section contributed by `financial_summary` (scanned whenever the
key is present, with no truthiness guard). -/
def fsSections (kvs : List (String × Json)) : List Json :=
  match kvs.lookup "financial_summary" with
  | some fs => [fs]
  | none => []

/-- All sections scanned by `has_balance_sheet_data`, in scan order. -/
def scannedSections (kvs : List (String × Json)) : List Json :=
  fsSections kvs ++ sectionsOf kvs "accounts" ++
    sectionsOf kvs "latest_accounts" ++ sectionsOf kvs "financials"

/-- Maximum of a list of naturals (0 on the empty list). -/
def maxList : List Nat → Nat
  | [] => 0
  | a :: l => max a (maxList l)

theorem maxList_append (a b : List Nat) :
    maxList (a ++ b) = max (maxList a) (maxList b) := by
  induction a with
  | nil => simp [maxList]
  | cons x xs ih => simp [maxList, ih, Nat.max_assoc]

theorem any_or_distrib (l : List Json) (p q : Json → Bool) :
    (l.any fun s => p s || q s) = (l.any p || l.any q) := by
  induction l with
  | nil => simp
  | cons x xs ih =>
    simp only [List.any_cons, ih]
    cases p x <;> cases q x <;> cases xs.any p <;> cases xs.any q <;> rfl

/-- `scanItemMax` in closed form: flags are OR-updated, entry counts are
combined with `max`. -/
theorem scanItemMax_eq (it : Json) (ai : AssetInfo) :
    scanItemMax it ai =
      { has_current_assets := ai.has_current_assets || (objQualLenC it).isSome,
        has_fixed_assets := ai.has_fixed_assets || (objQualLenF it).isSome,
        current_assets_entries := max ai.current_assets_entries (qLenC it),
        fixed_assets_entries := max ai.fixed_assets_entries (qLenF it) } := by
  cases it with
  | obj kvs =>
    simp only [scanItemMax, objQualLenC, objQualLenF, qLenC, qLenF]
    cases hc : kvs.lookup "current_assets" with
    | none =>
      cases hf : kvs.lookup "fixed_assets" with
      | none => simp [Option.bind]
      | some fa =>
        cases hq : qualList fa <;> simp [Option.bind, hq]
    | some ca =>
      cases hcq : qualList ca with
      | none =>
        cases hf : kvs.lookup "fixed_assets" with
        | none => simp [Option.bind, hcq]
        | some fa => cases hq : qualList fa <;> simp [Option.bind, hcq, hq]
      | some n =>
        cases hf : kvs.lookup "fixed_assets" with
        | none => simp [Option.bind, hcq]
        | some fa => cases hq : qualList fa <;> simp [Option.bind, hcq, hq]
  | null => simp [scanItemMax, objQualLenC, objQualLenF, qLenC, qLenF]
  | bool b => simp [scanItemMax, objQualLenC, objQualLenF, qLenC, qLenF]
  | num n => simp [scanItemMax, objQualLenC, objQualLenF, qLenC, qLenF]
  | str s => simp [scanItemMax, objQualLenC, objQualLenF, qLenC, qLenF]
  | arr xs => simp [scanItemMax, objQualLenC, objQualLenF, qLenC, qLenF]

/-- `scanDictAssign` in closed form: flags are OR-updated, entry counts
are overwritten when the section qualifies. -/
theorem scanDictAssign_eq (kvs : List (String × Json)) (ai : AssetInfo) :
    scanDictAssign kvs ai =
      { has_current_assets :=
          ai.has_current_assets || (objQualLenC (Json.obj kvs)).isSome,
        has_fixed_assets :=
          ai.has_fixed_assets || (objQualLenF (Json.obj kvs)).isSome,
        current_assets_entries :=
          (objQualLenC (Json.obj kvs)).getD ai.current_assets_entries,
        fixed_assets_entries :=
          (objQualLenF (Json.obj kvs)).getD ai.fixed_assets_entries } := by
  simp only [scanDictAssign, objQualLenC, objQualLenF]
  cases hc : kvs.lookup "current_assets" with
  | none =>
    cases hf : kvs.lookup "fixed_assets" with
    | none => simp [Option.bind]
    | some fa => cases hq : qualList fa <;> simp [Option.bind, hq]
  | some ca =>
    cases hcq : qualList ca with
    | none =>
      cases hf : kvs.lookup "fixed_assets" with
      | none => simp [Option.bind, hcq]
      | some fa => cases hq : qualList fa <;> simp [Option.bind, hcq, hq]
    | some n =>
      cases hf : kvs.lookup "fixed_assets" with
      | none => simp [Option.bind, hcq]
      | some fa => cases hq : qualList fa <;> simp [Option.bind, hcq, hq]

/-- `Except` monad reduction helpers. -/
theorem exc_bind_ok {α β : Type} (a : α) (f : α → Except Unit β) :
    (Except.ok a >>= f) = f a := rfl

theorem exc_bind_err {α β : Type} (f : α → Except Unit β) :
    ((Except.error () : Except Unit α) >>= f) = .error () := rfl

theorem exc_pure {α : Type} (a : α) :
    (pure a : Except Unit α) = .ok a := rfl

/-- When `scanFS` returns without raising, it behaves exactly like the
assigning dict scan (a non-dict `financial_summary` that survives the `in`
tests contributes nothing, and `objQualLen` is `none` on it). -/
theorem scanFS_ok (fs : Json) (ai ai' : AssetInfo)
    (h : scanFS fs ai = .ok ai') :
    ai' = { has_current_assets :=
              ai.has_current_assets || (objQualLenC fs).isSome,
            has_fixed_assets :=
              ai.has_fixed_assets || (objQualLenF fs).isSome,
            current_assets_entries :=
              (objQualLenC fs).getD ai.current_assets_entries,
            fixed_assets_entries :=
              (objQualLenF fs).getD ai.fixed_assets_entries } := by
  cases fs with
  | obj kvs =>
    have h2 := h
    simp only [scanFS, pyContains, pyIndex, exc_bind_ok, exc_bind_err,
      exc_pure, objQualLenC, objQualLenF] at h2 ⊢
    cases hc : kvs.lookup "current_assets" with
    | none =>
      cases hf : kvs.lookup "fixed_assets" with
      | none =>
        simp [hc, hf, exc_bind_ok, exc_pure, Option.bind] at h2
        simp [Option.bind, ← h2]
      | some fa =>
        cases hq : qualList fa <;>
          · simp [hc, hf, hq, exc_bind_ok, exc_pure, Option.bind] at h2
            simp [Option.bind, hq, ← h2]
    | some ca =>
      cases hcq : qualList ca with
      | none =>
        cases hf : kvs.lookup "fixed_assets" with
        | none =>
          simp [hc, hf, hcq, exc_bind_ok, exc_pure, Option.bind] at h2
          simp [Option.bind, hcq, ← h2]
        | some fa =>
          cases hq : qualList fa <;>
            · simp [hc, hf, hcq, hq, exc_bind_ok, exc_pure, Option.bind] at h2
              simp [Option.bind, hcq, hq, ← h2]
      | some n =>
        cases hf : kvs.lookup "fixed_assets" with
        | none =>
          simp [hc, hf, hcq, exc_bind_ok, exc_pure, Option.bind] at h2
          simp [Option.bind, hcq, ← h2]
        | some fa =>
          cases hq : qualList fa <;>
            · simp [hc, hf, hcq, hq, exc_bind_ok, exc_pure, Option.bind] at h2
              simp [Option.bind, hcq, hq, ← h2]
  | null => simp [scanFS, pyContains, exc_bind_err] at h
  | bool b => simp [scanFS, pyContains, exc_bind_err] at h
  | num n => simp [scanFS, pyContains, exc_bind_err] at h
  | arr xs =>
    have h2 := h
    simp only [scanFS, pyContains, exc_bind_ok, exc_bind_err, exc_pure] at h2
    cases hc : xs.any (fun e => jstrEq e "current_assets") with
    | true => simp [hc, pyIndex, exc_bind_ok, exc_bind_err] at h2
    | false =>
      cases hf : xs.any (fun e => jstrEq e "fixed_assets") with
      | true => simp [hc, hf, pyIndex, exc_bind_ok, exc_bind_err] at h2
      | false =>
        simp [hc, hf, exc_bind_ok, exc_pure] at h2
        simp [objQualLenC, objQualLenF, ← h2]
  | str s =>
    have h2 := h
    simp only [scanFS, pyContains, exc_bind_ok, exc_bind_err, exc_pure] at h2
    cases hc : strHasSub s "current_assets" with
    | true => simp [hc, pyIndex, exc_bind_ok, exc_bind_err] at h2
    | false =>
      cases hf : strHasSub s "fixed_assets" with
      | true => simp [hc, hf, pyIndex, exc_bind_ok, exc_bind_err] at h2
      | false =>
        simp [hc, hf, exc_bind_ok, exc_pure] at h2
        simp [objQualLenC, objQualLenF, ← h2]

/-- Folding `scanItemMax` over the items of a list-shaped section:
flags are OR-accumulated, entry counts are max-accumulated. -/
theorem foldl_scanItemMax (xs : List Json) (ai : AssetInfo) :
    xs.foldl (fun a it => scanItemMax it a) ai =
      { has_current_assets :=
          ai.has_current_assets || xs.any (fun it => (objQualLenC it).isSome),
        has_fixed_assets :=
          ai.has_fixed_assets || xs.any (fun it => (objQualLenF it).isSome),
        current_assets_entries :=
          max ai.current_assets_entries (maxList (xs.map qLenC)),
        fixed_assets_entries :=
          max ai.fixed_assets_entries (maxList (xs.map qLenF)) } := by
  induction xs generalizing ai with
  | nil => simp [maxList]
  | cons x rest ih =>
    rw [List.foldl_cons, ih]
    simp [scanItemMax_eq, maxList, Bool.or_assoc, Nat.max_assoc]

/-- Flag update of a full section scan, uniform over list- and
mapping-shaped sections. -/
theorem scanSection_flags (v : Json) (ai : AssetInfo) :
    (scanSection v ai).has_current_assets =
      (ai.has_current_assets ||
        (sectionItems v).any (fun s => (objQualLenC s).isSome)) ∧
    (scanSection v ai).has_fixed_assets =
      (ai.has_fixed_assets ||
        (sectionItems v).any (fun s => (objQualLenF s).isSome)) := by
  cases v with
  | arr xs => simp [scanSection, sectionItems, foldl_scanItemMax]
  | obj kvs => simp [scanSection, sectionItems, scanDictAssign_eq]
  | null => simp [scanSection, sectionItems]
  | bool b => simp [scanSection, sectionItems]
  | num n => simp [scanSection, sectionItems]
  | str s => simp [scanSection, sectionItems]

/-- Flag update of one keyed section scan. -/
theorem scanKey_flags (kvs : List (String × Json)) (k : String)
    (ai : AssetInfo) :
    (scanKey kvs k ai).has_current_assets =
      (ai.has_current_assets ||
        (sectionsOf kvs k).any (fun s => (objQualLenC s).isSome)) ∧
    (scanKey kvs k ai).has_fixed_assets =
      (ai.has_fixed_assets ||
        (sectionsOf kvs k).any (fun s => (objQualLenF s).isSome)) := by
  simp only [scanKey, sectionsOf]
  cases hl : kvs.lookup k with
  | none => simp
  | some v =>
    cases ht : truthy v with
    | true => simpa [ht] using scanSection_flags v ai
    | false => simp [ht]

/-- Decomposition of a successful `has_balance_sheet_data` run: the result
flags are the ordered OR over all scanned sections, the second component
is the asset info exactly when the first is true. -/
theorem hbsd_ok (kvs : List (String × Json)) (b : Bool)
    (info : Option AssetInfo)
    (h : has_balance_sheet_data (some kvs) = .ok (b, info)) :
    ∃ ai : AssetInfo,
      info = (if b then some ai else none) ∧
      b = (ai.has_current_assets || ai.has_fixed_assets) ∧
      ai.has_current_assets =
        (scannedSections kvs).any (fun s => (objQualLenC s).isSome) ∧
      ai.has_fixed_assets =
        (scannedSections kvs).any (fun s => (objQualLenF s).isSome) := by
  by_cases hz : kvs.length = 0
  · have hnil : kvs = [] := List.length_eq_zero.mp hz
    subst hnil
    simp only [has_balance_sheet_data, if_pos rfl, exc_pure, List.length_nil] at h
    obtain ⟨hb, hi⟩ := Prod.mk.injEq .. ▸ (Except.ok.injEq .. ▸ h)
    refine ⟨AssetInfo.init, ?_, ?_, ?_, ?_⟩ <;>
      simp [← hb, ← hi, AssetInfo.init, scannedSections, fsSections,
        sectionsOf, List.lookup]
  · have h2 := h
    simp only [has_balance_sheet_data, if_neg hz] at h2
    cases hfs : kvs.lookup "financial_summary" with
    | none =>
      simp only [hfs, exc_pure, exc_bind_ok] at h2
      set ai4 := scanKey kvs "financials"
        (scanKey kvs "latest_accounts"
          (scanKey kvs "accounts" AssetInfo.init)) with hai4
      obtain ⟨hb, hi⟩ : (ai4.has_current_assets || ai4.has_fixed_assets) = b ∧
          (if (ai4.has_current_assets || ai4.has_fixed_assets) = true
            then some ai4 else none) = info := by
        simpa [exc_pure] using h2
      refine ⟨ai4, ?_, hb.symm, ?_, ?_⟩
      · rw [← hi, ← hb]
      · rw [hai4]
        simp [scannedSections, fsSections, hfs, (scanKey_flags ..).1,
          AssetInfo.init, Bool.or_assoc, List.any_append]
      · rw [hai4]
        simp [scannedSections, fsSections, hfs, (scanKey_flags ..).2,
          AssetInfo.init, Bool.or_assoc, List.any_append]
    | some fs =>
      simp only [hfs] at h2
      cases hsf : scanFS fs AssetInfo.init with
      | error e => rw [hsf] at h2; simp [exc_bind_err] at h2
      | ok ai1 =>
        rw [hsf] at h2
        simp only [exc_bind_ok, exc_pure] at h2
        set ai4 := scanKey kvs "financials"
          (scanKey kvs "latest_accounts" (scanKey kvs "accounts" ai1)) with hai4
        obtain ⟨hb, hi⟩ : (ai4.has_current_assets || ai4.has_fixed_assets) = b ∧
            (if (ai4.has_current_assets || ai4.has_fixed_assets) = true
              then some ai4 else none) = info := by
          simpa using h2
        have hai1 := scanFS_ok fs AssetInfo.init ai1 hsf
        refine ⟨ai4, ?_, hb.symm, ?_, ?_⟩
        · rw [← hi, ← hb]
        · rw [hai4]
          simp [scannedSections, fsSections, hfs, (scanKey_flags ..).1, hai1,
            AssetInfo.init, Bool.or_assoc, List.any_append]
        · rw [hai4]
          simp [scannedSections, fsSections, hfs, (scanKey_flags ..).2, hai1,
            AssetInfo.init, Bool.or_assoc, List.any_append]

/-- Entry-count update of one keyed section scan when the section is
absent, falsy, or list-shaped: a max-accumulation. -/
theorem scanKey_entries_arr (kvs : List (String × Json)) (k : String)
    (ai : AssetInfo)
    (hv : ∀ v, kvs.lookup k = some v →
      truthy v = false ∨ ∃ xs, v = Json.arr xs) :
    (scanKey kvs k ai).current_assets_entries =
      max ai.current_assets_entries (maxList ((sectionsOf kvs k).map qLenC)) ∧
    (scanKey kvs k ai).fixed_assets_entries =
      max ai.fixed_assets_entries (maxList ((sectionsOf kvs k).map qLenF)) := by
  simp only [scanKey, sectionsOf]
  cases hl : kvs.lookup k with
  | none => simp [maxList]
  | some v =>
    rcases hv v hl with ht | ⟨xs, rfl⟩
    · simp [ht, maxList]
    · cases ht : truthy (Json.arr xs) with
      | false => simp [ht, maxList]
      | true =>
        simp [ht, scanSection, sectionItems, foldl_scanItemMax]

/-- The three non-summary keys of `financial_data` scanned by
`has_balance_sheet_data`. -/
def otherSectionKeys : List String := ["accounts", "latest_accounts", "financials"]

/-- Hypothesis of the amended entry-count claim: every non-summary section
is absent, falsy, or list-shaped (no mapping-shaped section). -/
def ListShapedSections (kvs : List (String × Json)) : Prop :=
  ∀ k ∈ otherSectionKeys, ∀ v, kvs.lookup k = some v →
    truthy v = false ∨ ∃ xs, v = Json.arr xs

/-- Entry counts of a successful `has_balance_sheet_data` run when no
non-summary section is mapping-shaped: the running maximum over all
scanned sections. -/
theorem hbsd_entries_of_listShaped (kvs : List (String × Json))
    (ai : AssetInfo)
    (h : has_balance_sheet_data (some kvs) = .ok (true, some ai))
    (hsh : ListShapedSections kvs) :
    ai.current_assets_entries = maxList ((scannedSections kvs).map qLenC) ∧
    ai.fixed_assets_entries = maxList ((scannedSections kvs).map qLenF) := by
  have hacc := hsh "accounts" (by simp [otherSectionKeys])
  have hlat := hsh "latest_accounts" (by simp [otherSectionKeys])
  have hfin := hsh "financials" (by simp [otherSectionKeys])
  by_cases hz : kvs.length = 0
  · have hnil : kvs = [] := List.length_eq_zero.mp hz
    subst hnil
    simp [has_balance_sheet_data, exc_pure] at h
  · have h2 := h
    simp only [has_balance_sheet_data, if_neg hz] at h2
    have main : ∀ ai1 : AssetInfo,
        ai1.current_assets_entries = maxList ((fsSections kvs).map qLenC) →
        ai1.fixed_assets_entries = maxList ((fsSections kvs).map qLenF) →
        (scanKey kvs "financials"
          (scanKey kvs "latest_accounts"
            (scanKey kvs "accounts" ai1))) = ai →
        ai.current_assets_entries = maxList ((scannedSections kvs).map qLenC) ∧
        ai.fixed_assets_entries = maxList ((scannedSections kvs).map qLenF) := by
      intro ai1 hc1 hf1 heq
      have e1 := scanKey_entries_arr kvs "accounts" ai1 hacc
      have e2 := scanKey_entries_arr kvs "latest_accounts"
        (scanKey kvs "accounts" ai1) hlat
      have e3 := scanKey_entries_arr kvs "financials"
        (scanKey kvs "latest_accounts" (scanKey kvs "accounts" ai1)) hfin
      rw [heq] at e3
      constructor
      · rw [e3.1, e2.1, e1.1, hc1]
        simp [scannedSections, List.map_append, maxList_append, Nat.max_assoc]
      · rw [e3.2, e2.2, e1.2, hf1]
        simp [scannedSections, List.map_append, maxList_append, Nat.max_assoc]
    cases hfs : kvs.lookup "financial_summary" with
    | none =>
      simp only [hfs, exc_pure, exc_bind_ok] at h2
      set ai4 := scanKey kvs "financials"
        (scanKey kvs "latest_accounts"
          (scanKey kvs "accounts" AssetInfo.init)) with hai4
      have hinj : (if (ai4.has_current_assets || ai4.has_fixed_assets) = true
          then some ai4 else none) = some ai := by
        have := congrArg (fun r => (Except.ok (ε := Unit)
          ((ai4.has_current_assets || ai4.has_fixed_assets,
            if (ai4.has_current_assets || ai4.has_fixed_assets) = true
            then some ai4 else none)) = r)) h2
        by_cases hb4 : (ai4.has_current_assets || ai4.has_fixed_assets) = true <;>
          simp [hb4] at h2 ⊢ <;> simp_all
      have hae : ai4 = ai := by
        by_cases hb4 : (ai4.has_current_assets || ai4.has_fixed_assets) = true <;>
          simp [hb4] at hinj
        exact hinj
      exact main AssetInfo.init
        (by simp [fsSections, hfs, AssetInfo.init, maxList])
        (by simp [fsSections, hfs, AssetInfo.init, maxList]) hae
    | some fs =>
      simp only [hfs] at h2
      cases hsf : scanFS fs AssetInfo.init with
      | error e => rw [hsf] at h2; simp [exc_bind_err] at h2
      | ok ai1 =>
        rw [hsf] at h2
        simp only [exc_bind_ok, exc_pure] at h2
        set ai4 := scanKey kvs "financials"
          (scanKey kvs "latest_accounts" (scanKey kvs "accounts" ai1)) with hai4
        have hinj : (if (ai4.has_current_assets || ai4.has_fixed_assets) = true
            then some ai4 else none) = some ai := by
          by_cases hb4 : (ai4.has_current_assets || ai4.has_fixed_assets) = true <;>
            simp [hb4] at h2 ⊢ <;> simp_all
        have hae : ai4 = ai := by
          by_cases hb4 : (ai4.has_current_assets || ai4.has_fixed_assets) = true <;>
            simp [hb4] at hinj
          exact hinj
        have hai1 := scanFS_ok fs AssetInfo.init ai1 hsf
        refine main ai1 ?_ ?_ hae
        · rw [hai1]
          simp [fsSections, hfs, AssetInfo.init, maxList, qLenC]
        · rw [hai1]
          simp [fsSections, hfs, AssetInfo.init, maxList, qLenF]

/-- Whether `kvs` holds key `k` with a truthy value (the test
`k in cd and cd[k]` of the source, on a dict). -/
def keyTruthy (kvs : List (String × Json)) (k : String) : Bool :=
  match kvs.lookup k with
  | some v => truthy v
  | none => false

/-- Value stored under `k` (only meaningful when the key is present). -/
def keyVal (kvs : List (String × Json)) (k : String) : Json :=
  (kvs.lookup k).getD Json.null

theorem addKey_obj (kvs : List (String × Json)) (k : String)
    (acc : List (String × Json)) :
    addKey (Json.obj kvs) k acc =
      .ok (acc ++ (if keyTruthy kvs k then [(k, keyVal kvs k)] else [])) := by
  simp only [addKey, pyContains, pyIndex, keyTruthy, keyVal, exc_bind_ok]
  cases hl : kvs.lookup k with
  | none => simp [exc_pure]
  | some v =>
    cases ht : truthy v with
    | true => simp [ht, exc_bind_ok, exc_pure]
    | false => simp [ht, exc_bind_ok, exc_pure]

/-- C4: `has_financial_data` holds exactly when one of the four known
keys carries a truthy value; a present-but-falsy key does not count, and
when none qualifies the result is `(false, none)`.  The first conjunct is
the `None`-input case (`if not company_details`). -/
theorem C4_has_financial_data :
    has_financial_data none = .ok (false, none) ∧
    ∀ (kvs : List (String × Json)) (b : Bool)
      (fd : Option (List (String × Json))),
      has_financial_data (some (Json.obj kvs)) = .ok (b, fd) →
      b = (keyTruthy kvs "financials" || keyTruthy kvs "accounts" ||
           keyTruthy kvs "latest_accounts" || keyTruthy kvs "financial_summary") ∧
      (b = false → fd = none) := by
  refine ⟨rfl, ?_⟩
  intro kvs b fd h
  by_cases hz : kvs.length = 0
  · have hnil : kvs = [] := List.length_eq_zero.mp hz
    subst hnil
    have h2 := h
    simp [has_financial_data, optTruthy, truthy, exc_pure] at h2
    obtain ⟨hb, hfd⟩ := h2
    simp [keyTruthy, List.lookup, ← hb, ← hfd]
  · have h2 := h
    simp only [has_financial_data, optTruthy, truthy] at h2
    rw [if_neg (by simpa using hz)] at h2
    simp only [addKey_obj, exc_bind_ok, exc_pure, List.nil_append] at h2
    rw [Except.ok.injEq, Prod.mk.injEq] at h2
    obtain ⟨hb, hfd⟩ := h2
    cases hf1 : keyTruthy kvs "financials" <;>
      cases hf2 : keyTruthy kvs "accounts" <;>
        cases hf3 : keyTruthy kvs "latest_accounts" <;>
          cases hf4 : keyTruthy kvs "financial_summary" <;>
            simp_all

/-- Concrete detail record for the C4 witness: a falsy `financials`, a
truthy `accounts`, so classification must succeed via `accounts` alone. -/
def cdC4 : List (String × Json) :=
  [("name", Json.str "A"), ("financials", Json.arr []),
   ("accounts", Json.obj [("x", Json.num 1)])]

/-- Witness for C4 at a concrete record: key present with falsy value does
not count, the truthy `accounts` key does. -/
theorem C4_has_financial_data_witness :
    (true : Bool) = (keyTruthy cdC4 "financials" || keyTruthy cdC4 "accounts" ||
      keyTruthy cdC4 "latest_accounts" || keyTruthy cdC4 "financial_summary") ∧
    ((true : Bool) = false →
      (some [("accounts", Json.obj [("x", Json.num 1)])] :
        Option (List (String × Json))) = none) :=
  C4_has_financial_data.2 cdC4 true
    (some [("accounts", Json.obj [("x", Json.num 1)])]) rfl

/-- C5: on any successful run, the acceptance flag is true exactly when
some scanned section holds a non-null, non-empty `current_assets` or
`fixed_assets` list (regardless of element values); each per-type flag is
the OR over scanned sections of that type's qualification; and the info
dict is returned exactly when the flag is true. -/
theorem C5_lenient_or_acceptance (kvs : List (String × Json)) (b : Bool)
    (info : Option AssetInfo)
    (h : has_balance_sheet_data (some kvs) = .ok (b, info)) :
    b = ((scannedSections kvs).any fun s =>
          (objQualLenC s).isSome || (objQualLenF s).isSome) ∧
    (b = true → ∃ ai : AssetInfo, info = some ai ∧
      ai.has_current_assets =
        ((scannedSections kvs).any fun s => (objQualLenC s).isSome) ∧
      ai.has_fixed_assets =
        ((scannedSections kvs).any fun s => (objQualLenF s).isSome) ∧
      b = (ai.has_current_assets || ai.has_fixed_assets)) ∧
    (b = false → info = none) := by
  obtain ⟨ai, hinfo, hb, hc, hf⟩ := hbsd_ok kvs b info h
  refine ⟨?_, ?_, ?_⟩
  · rw [hb, hc, hf, any_or_distrib]
  · intro hbt
    exact ⟨ai, by rw [hinfo, if_pos hbt], hc, hf, hb⟩
  · intro hbf
    rw [hinfo, hbf]
    simp

/-- Concrete `financial_data` for the C5 witness: the spec scenario of a
`financial_summary.current_assets` list of three nulls. -/
def fdC5 : List (String × Json) :=
  [("financial_summary",
    Json.obj [("current_assets", Json.arr [Json.null, Json.null, Json.null])])]

/-- Witness for C5: all-null entries still qualify, fixed assets absent,
acceptance via OR. -/
theorem C5_lenient_or_acceptance_witness :
    (true : Bool) = ((scannedSections fdC5).any fun s =>
      (objQualLenC s).isSome || (objQualLenF s).isSome) ∧
    ((true : Bool) = true → ∃ ai : AssetInfo,
      (some (⟨true, false, 3, 0⟩ : AssetInfo) : Option AssetInfo) = some ai ∧
      ai.has_current_assets =
        ((scannedSections fdC5).any fun s => (objQualLenC s).isSome) ∧
      ai.has_fixed_assets =
        ((scannedSections fdC5).any fun s => (objQualLenF s).isSome) ∧
      (true : Bool) = (ai.has_current_assets || ai.has_fixed_assets)) ∧
    ((true : Bool) = false →
      (some (⟨true, false, 3, 0⟩ : AssetInfo) : Option AssetInfo) = none) :=
  C5_lenient_or_acceptance fdC5 true (some ⟨true, false, 3, 0⟩) rfl

/-- C2 (amended): when no non-summary section is mapping-shaped, the
reported entry counts are the running maximum of qualifying lengths over
all scanned sections. -/
theorem C2_entries_max_amended (kvs : List (String × Json)) (ai : AssetInfo)
    (h : has_balance_sheet_data (some kvs) = .ok (true, some ai))
    (hsh : ListShapedSections kvs) :
    ai.current_assets_entries = maxList ((scannedSections kvs).map qLenC) ∧
    ai.fixed_assets_entries = maxList ((scannedSections kvs).map qLenF) :=
  hbsd_entries_of_listShaped kvs ai h hsh

/-- Concrete `financial_data` for the C2 witness: `financial_summary`
reports 2 periods, a list-shaped `accounts` reports 5 and 1; the maximum
5 wins. -/
def fdC2w : List (String × Json) :=
  [("financial_summary", Json.obj [("current_assets", Json.arr [Json.null, Json.null])]),
   ("accounts", Json.arr
     [Json.obj [("current_assets",
        Json.arr [Json.null, Json.null, Json.null, Json.null, Json.null])],
      Json.obj [("current_assets", Json.arr [Json.null])]])]

/-- Witness for the amended C2 on a list-shaped input. -/
theorem C2_entries_max_amended_witness :
    (5 : Nat) = maxList ((scannedSections fdC2w).map qLenC) ∧
    (0 : Nat) = maxList ((scannedSections fdC2w).map qLenF) :=
  C2_entries_max_amended fdC2w ⟨true, false, 5, 0⟩ rfl
    (by
      intro k hk v hv
      rcases (show k = "accounts" ∨ k = "latest_accounts" ∨ k = "financials"
        by simpa [otherSectionKeys] using hk) with rfl | rfl | rfl
      · right
        simp [fdC2w, List.lookup] at hv
        exact ⟨_, hv.symm⟩
      · simp [fdC2w, List.lookup] at hv
      · simp [fdC2w, List.lookup] at hv)

/-- Concrete `financial_data` refuting C2 as stated: `financial_summary`
holds a qualifying list of length 5, but a later *mapping-shaped*
`accounts` section overwrites the count with its own length 2, so the
reported count is 2 while the maximum over scanned sections is 5. -/
def fdC2cex : List (String × Json) :=
  [("financial_summary", Json.obj [("current_assets",
      Json.arr [Json.null, Json.null, Json.null, Json.null, Json.null])]),
   ("accounts", Json.obj [("current_assets", Json.arr [Json.null, Json.null])])]

/-- Counterexample to C2 as stated: the reported `current_assets_entries`
is 2, not the maximum 5 over the scanned sections. -/
theorem C2_entries_not_max_counterexample :
    has_balance_sheet_data (some fdC2cex) =
      .ok (true, some ⟨true, false, 2, 0⟩) ∧
    maxList ((scannedSections fdC2cex).map qLenC) = 5 ∧
    (2 : Nat) ≠ 5 := ⟨rfl, rfl, by decide⟩

/-!
## The crawl state, the network oracle, and the HTTP client

The run state collects exactly the mutable fields of the
`BoomerBusinessFinder` instance the crawl reads and writes.  The network
is an oracle mapping the index of an attempt (0-based, in issue order) to
its outcome: a 200 response with a parsed JSON body, a non-200 status, a
timeout, or another transport exception (`requests` raising before a
response exists).  In the source the counter increment
`self.request_count += 1` sits *after* `requests.get`, so an attempt that
raises never increments `request_count`; the ghost field `attempts`
counts every attempt (it is also the oracle cursor), `request_count` is
the program's own counter.

Two ghost instruments support the trace claims: `log` records every
search-page request (with the counter at issuance), every detail-fetch
call (with the per-industry count and the counter at issuance), and every
`time.sleep` (in tenths of a second, so the 1.5 s inter-detail delay is
the natural number 15); `attempts` is described above.  Neither is read
by the crawl logic itself.

A `crash` outcome models a Python exception that no handler of the
crawl catches (e.g. a `TypeError` out of the classifiers): it aborts the
whole run, carrying the state reached so far.
-/

inductive HResp where
  | ok (body : Json)
  | code (c : Nat)
  | timeout
  | netExc

inductive Event where
  | searchReq (rc : Nat)
  | detailCall (industry : String) (icount : Nat) (rc : Nat)
  | sleepDs (ds : Nat)
deriving DecidableEq

structure ErrRec where
  error_type : String
  jurisdiction : Json
  company_number : Json

/-- One flattened output row, the fields `extract_company_info` builds
(source lines 548-595) plus the four balance-sheet metadata fields added
at lines 483-486.  `financial_data` is `none` for the string `"N/A"`;
`industry_codes` / `previous_names` use an outer `Option` for "key
absent" and an inner `none` for `"N/A"`. -/
structure Rec where
  industry_category : String
  search_keyword : String
  company_name : Json
  company_number : Json
  jurisdiction : Json
  incorporation_date : Json
  company_type : Json
  status : Json
  registered_address : Json
  opencorporates_url : Json
  officers_available : Bool
  officers_url : Json
  financial_data : Option (List (String × Json))
  industry_codes : Option (Option Json)
  previous_names : Option (Option Json)
  has_current_assets : Bool
  has_fixed_assets : Bool
  current_assets_years : Nat
  fixed_assets_years : Nat

structure St where
  results : List Rec
  request_count : Nat
  companies_checked : Nat
  companies_with_financials : Nat
  companies_without_financials : Nat
  companies_with_balance_sheet : Nat
  companies_without_balance_sheet : Nat
  industry_counts : List (String × Nat)
  errors : List ErrRec
  attempts : Nat
  log : List Event

/-- The all-zero initial state of a fresh `BoomerBusinessFinder`. -/
def St.init : St := ⟨[], 0, 0, 0, 0, 0, 0, [], [], 0, []⟩

/-- Outcome of a crawl fragment: a normal return or an uncaught Python
exception aborting the run. -/
inductive Out (α : Type) where
  | ret (a : α)
  | crash

/-- Run configuration (the mode-dependent constructor constants). -/
structure Cfg where
  mode_test : Bool
  target_per_industry : Nat
  max_total_companies : Option Nat
  max_requests : Nat
  max_pages : Nat

def bumpA (st : St) : St := { st with attempts := st.attempts + 1 }

def bumpRC (st : St) : St := { st with request_count := st.request_count + 1 }

def logEv (e : Event) (st : St) : St := { st with log := st.log ++ [e] }

def addErr (t : String) (jur num : Json) (st : St) : St :=
  { st with errors := st.errors ++ [⟨t, jur, num⟩] }

/-- `self.industry_counts.get(k, 0)`. -/
def icGet (l : List (String × Nat)) (k : String) : Nat := (l.lookup k).getD 0

/-- Python dict assignment `d[k] = v` on an association list: update in
place, append when new. -/
def icSet : List (String × Nat) → String → Nat → List (String × Nat)
  | [], k, v => [(k, v)]
  | (k', v') :: rest, k, v =>
    if k' = k then (k', v) :: rest else (k', v') :: icSet rest k v

/-- `if self.max_total_companies and len(self.results) >= self.max_total_companies`
(a `None` or zero limit is falsy and disables the check). -/
def limitTotal (cfg : Cfg) (st : St) : Bool :=
  match cfg.max_total_companies with
  | some m => if m = 0 then false else decide (m ≤ st.results.length)
  | none => false

/-- `if self.mode == "test"` followed by
`industry_counts.get(industry, 0) >= self.target_per_industry`. -/
def limitIndustry (cfg : Cfg) (industry : String) (st : St) : Bool :=
  cfg.mode_test && decide (cfg.target_per_industry ≤ icGet st.industry_counts industry)

/-- The retry loop of `fetch_company_details` (source lines 139-214).
`rc` is `retry_count`; the guard `maxRetries < rc` is the `while`
condition.  `fuel` only forces termination and is chosen strictly larger
than the longest possible run (`maxRetries + 1` iterations, since every
iteration that loops again increments `rc`), so the guard is always the
actual decider. -/
def fetchLoop (oracle : Nat → HResp) (jur num : Json) (maxRetries : Nat) :
    Nat → Nat → St → St × Out (Option Json)
  | 0, _, st => (st, .ret none)
  | fuel + 1, rc, st =>
    if maxRetries < rc then (st, .ret none)
    else
      let resp := oracle st.attempts
      let st1 := bumpA st
      match resp with
      | .ok body =>
        let st2 := bumpRC st1
        match pyGetD body "results" (Json.obj []) with
        | .error _ => (st2, .crash)
        | .ok r =>
          match pyGetD r "company" (Json.obj []) with
          | .error _ => (st2, .crash)
          | .ok c => (st2, .ret (some c))
      | .code c =>
        let st2 := bumpRC st1
        if c = 429 then
          fetchLoop oracle jur num maxRetries fuel (rc + 1)
            (logEv (.sleepDs (20 * 2 ^ rc)) st2)
        else if c = 404 then
          (addErr "404_Not_Found" jur num st2, .ret none)
        else if rc < maxRetries then
          fetchLoop oracle jur num maxRetries fuel (rc + 1)
            (logEv (.sleepDs 20) st2)
        else
          (addErr ("HTTP_" ++ toString c) jur num st2, .ret none)
      | .timeout =>
        if rc < maxRetries then
          fetchLoop oracle jur num maxRetries fuel (rc + 1)
            (logEv (.sleepDs 20) st1)
        else
          (addErr "Timeout" jur num st1, .ret none)
      | .netExc =>
        (addErr "Request_Exception" jur num st1, .ret none)

/-- `BoomerBusinessFinder.fetch_company_details` with the default
`max_retries=2`. -/
def fetch_company_details (oracle : Nat → HResp) (jur num : Json) (st : St) :
    St × Out (Option Json) :=
  fetchLoop oracle jur num 2 4 0 st

/-- Body of `extract_company_info` (source lines 548-595) before its
`try/except`: any exception makes the caller see `None`. -/
def extractBody (company : Json) (kw industry : String)
    (details : Option Json) (fd : Option (List (String × Json))) :
    Except Unit Rec := do
  let name ← pyGetD company "name" (Json.str "N/A")
  let number ← pyGetD company "company_number" (Json.str "N/A")
  let jur ← pyGetD company "jurisdiction_code" (Json.str "N/A")
  let incDate ← pyGetD company "incorporation_date" (Json.str "N/A")
  let ctype ← pyGetD company "company_type" (Json.str "N/A")
  let cstatus ← pyGetD company "current_status" (Json.str "N/A")
  let addr ← pyGetD company "registered_address_in_full" (Json.str "N/A")
  let url ← pyGetD company "opencorporates_url" (Json.str "N/A")
  let officers ← pyGetD company "officers_url" Json.null
  let base : Rec :=
    { industry_category := industry, search_keyword := kw,
      company_name := name, company_number := number, jurisdiction := jur,
      incorporation_date := incDate, company_type := ctype, status := cstatus,
      registered_address := addr, opencorporates_url := url,
      officers_available := truthy officers,
      officers_url := if truthy officers then officers else Json.str "N/A",
      financial_data := fd, industry_codes := none, previous_names := none,
      has_current_assets := false, has_fixed_assets := false,
      current_assets_years := 0, fixed_assets_years := 0 }
  if optTruthy details then
    match details with
    | none => pure base
    | some d => do
      let hasIC ← pyContains d "industry_codes"
      let ic ←
        if hasIC then do
          let v ← pyGetD d "industry_codes" (Json.arr [])
          pure (some v)
        else pure none
      let hasPN ← pyContains d "previous_names"
      let pn ←
        if hasPN then do
          let v ← pyIndex d "previous_names"
          if truthy v then do
            let w ← pyGetD d "previous_names" (Json.arr [])
            pure (some w)
          else pure none
        else pure none
      pure { base with industry_codes := some ic, previous_names := some pn }
  else pure base

/-- `BoomerBusinessFinder.extract_company_info`: the `try/except` turns
any exception into `None`. -/
def extract_company_info (company : Json) (kw industry : String)
    (details : Option Json) (fd : Option (List (String × Json))) :
    Option Rec :=
  (extractBody company kw industry details fd).toOption

/-- Per-item body of the `for idx, company_data in enumerate(companies)`
loop (source lines 432-502), *after* the two mid-page limit checks that
the item loop performs before it.  A falsy jurisdiction or registration
number skips the item.  The unconditional 1.5 s sleep after the detail
fetch is the `sleepDs 15` event. -/
def processItem (oracle : Nat → HResp) (kw industry : String) (cd : Json)
    (st : St) : St × Out Unit :=
  match pyGetD cd "company" (Json.obj []) with
  | .error _ => (st, .crash)
  | .ok company =>
  match pyGetD company "jurisdiction_code" (Json.str "") with
  | .error _ => (st, .crash)
  | .ok jur =>
  match pyGetD company "company_number" (Json.str "") with
  | .error _ => (st, .crash)
  | .ok num =>
  match pyGetD company "name" (Json.str "Unknown") with
  | .error _ => (st, .crash)
  | .ok _ =>
  if truthy jur = false || truthy num = false then (st, .ret ())
  else
    let st1 := { st with companies_checked := st.companies_checked + 1 }
    let st2 := logEv
      (.detailCall industry (icGet st1.industry_counts industry)
        st1.request_count) st1
    match fetch_company_details oracle jur num st2 with
    | (st3, .crash) => (st3, .crash)
    | (st3, .ret details) =>
      let st4 := logEv (.sleepDs 15) st3
      match has_financial_data details with
      | .error _ => (st4, .crash)
      | .ok (hasFin, finData) =>
        if hasFin then
          let st5 := { st4 with
            companies_with_financials := st4.companies_with_financials + 1 }
          match has_balance_sheet_data finData with
          | .error _ => (st5, .crash)
          | .ok (hasBS, assetInfo) =>
            if hasBS then
              let st6 := { st5 with
                companies_with_balance_sheet :=
                  st5.companies_with_balance_sheet + 1 }
              match assetInfo with
              | none => (st6, .crash)
              | some ai =>
                match extract_company_info company kw industry details finData with
                | some r0 =>
                  let r := { r0 with
                    has_current_assets := ai.has_current_assets,
                    has_fixed_assets := ai.has_fixed_assets,
                    current_assets_years := ai.current_assets_entries,
                    fixed_assets_years := ai.fixed_assets_entries }
                  ({ st6 with
                     results := st6.results ++ [r],
                     industry_counts := icSet st6.industry_counts industry
                       (icGet st6.industry_counts industry + 1) }, .ret ())
                | none => (st6, .ret ())
            else
              ({ st5 with
                 companies_without_balance_sheet :=
                   st5.companies_without_balance_sheet + 1 }, .ret ())
        else
          ({ st4 with
             companies_without_financials :=
               st4.companies_without_financials + 1 }, .ret ())

/-- The item loop of one result page: before each item the total-result
and (test-mode) per-industry limits are re-checked and a `break` stops
the remaining items (source lines 420-430). -/
def itemsLoop (cfg : Cfg) (oracle : Nat → HResp) (kw industry : String) :
    List Json → St → St × Out Unit
  | [], st => (st, .ret ())
  | cd :: rest, st =>
    if limitTotal cfg st then (st, .ret ())
    else if limitIndustry cfg industry st then (st, .ret ())
    else
      match processItem oracle kw industry cd st with
      | (st1, .ret _) => itemsLoop cfg oracle kw industry rest st1
      | (st1, .crash) => (st1, .crash)

/-- The `while page <= max_pages and self.request_count < self.max_requests`
pagination loop of `search_companies` (source lines 374-543).  `fuel`
only forces termination: every iteration that loops again (a processed
200 page, or a 429 retried with the same page) has incremented
`request_count` by at least one, and the loop only runs while
`request_count < max_requests`, so `max_requests` iterations always
suffice from any start and the `while` condition is the actual decider. -/
def searchLoop (cfg : Cfg) (oracle : Nat → HResp) (kw industry : String) :
    Nat → Nat → St → St × Out Unit
  | 0, _, st => (st, .ret ())
  | fuel + 1, page, st =>
    if (decide (page ≤ cfg.max_pages) &&
        decide (st.request_count < cfg.max_requests)) = false then (st, .ret ())
    else if limitTotal cfg st then (st, .ret ())
    else if limitIndustry cfg industry st then (st, .ret ())
    else
      let resp := oracle st.attempts
      let st0 := logEv (.searchReq st.request_count) (bumpA st)
      match resp with
      | .ok body =>
        let st1 := bumpRC st0
        match pyContains body "results" with
        | .error _ => (st1, .crash)
        | .ok cres =>
          if cres = false then (st1, .ret ())
          else
            match pyIndex body "results" with
            | .error _ => (st1, .crash)
            | .ok r =>
              match pyContains r "companies" with
              | .error _ => (st1, .crash)
              | .ok ccomp =>
                if ccomp = false then (st1, .ret ())
                else
                  match pyIndex r "companies" with
                  | .error _ => (st1, .crash)
                  | .ok companiesJ =>
                    if truthy companiesJ = false then (st1, .ret ())
                    else
                      match pyIter companiesJ with
                      | .error _ => (st1, .crash)
                      | .ok items =>
                        match itemsLoop cfg oracle kw industry items st1 with
                        | (st2, .crash) => (st2, .crash)
                        | (st2, .ret _) =>
                          if limitTotal cfg st2 then (st2, .ret ())
                          else if limitIndustry cfg industry st2 then (st2, .ret ())
                          else
                            match pyGetD body "results" (Json.obj []) with
                            | .error _ => (st2, .crash)
                            | .ok rr =>
                              match pyGetD rr "total_pages" (Json.num 0) with
                              | .error _ => (st2, .crash)
                              | .ok tp =>
                                match pyGeNum page tp with
                                | .error _ => (st2, .crash)
                                | .ok ge =>
                                  if ge then (st2, .ret ())
                                  else
                                    searchLoop cfg oracle kw industry fuel
                                      (page + 1) (logEv (.sleepDs 20) st2)
      | .code c =>
        let st1 := bumpRC st0
        if c = 429 then
          searchLoop cfg oracle kw industry fuel page (logEv (.sleepDs 600) st1)
        else (st1, .ret ())
      | .timeout => (st0, .ret ())
      | .netExc => (st0, .ret ())

/-- `BoomerBusinessFinder.search_companies` (source lines 344-546):
the two up-front limit checks, then the pagination loop from page 1; the
return value is the number of records this keyword contributed. -/
def search_companies (cfg : Cfg) (oracle : Nat → HResp) (kw industry : String)
    (st : St) : St × Out Nat :=
  if limitIndustry cfg industry st then (st, .ret 0)
  else if limitTotal cfg st then (st, .ret 0)
  else
    match searchLoop cfg oracle kw industry cfg.max_requests 1 st with
    | (st1, .crash) => (st1, .crash)
    | (st1, .ret _) => (st1, .ret (st1.results.length - st.results.length))

/-- The keyword loop of `run_search` (source lines 633-650): before each
keyword the request budget, total limit and (test-mode) industry target
are re-checked and a `break` ends the loop for this industry. -/
def keywordLoop (cfg : Cfg) (oracle : Nat → HResp) (industry : String) :
    List String → St → St × Out Unit
  | [], st => (st, .ret ())
  | kw :: rest, st =>
    if decide (cfg.max_requests ≤ st.request_count) then (st, .ret ())
    else if limitTotal cfg st then (st, .ret ())
    else if limitIndustry cfg industry st then (st, .ret ())
    else
      match search_companies cfg oracle kw industry st with
      | (st1, .crash) => (st1, .crash)
      | (st1, .ret _) => keywordLoop cfg oracle industry rest st1

/-- The industry loop of `run_search` (source lines 625-657): after each
industry the global budget and total limit are re-checked. -/
def industryLoop (cfg : Cfg) (oracle : Nat → HResp) :
    List (String × List String) → St → St × Out Unit
  | [], st => (st, .ret ())
  | (industry, kws) :: rest, st =>
    match keywordLoop cfg oracle industry kws st with
    | (st1, .crash) => (st1, .crash)
    | (st1, .ret _) =>
      if decide (cfg.max_requests ≤ st1.request_count) then (st1, .ret ())
      else if limitTotal cfg st1 then (st1, .ret ())
      else industryLoop cfg oracle rest st1

/-- `BoomerBusinessFinder.run_search` (source lines 597-685): industries
in plan order, keywords in list order; the final checkpoint save does not
change the crawl state. -/
def run_search (cfg : Cfg) (oracle : Nat → HResp)
    (industries : List (String × List String)) (st : St) : St × Out Unit :=
  industryLoop cfg oracle industries st

/-!
## Checkpoint store

`save_checkpoint` (source lines 73-96) writes a JSON object with fixed
keys; `load_checkpoint` (source lines 98-119) reads it back, restoring
each field with `dict.get` defaults, and returns `False` instead of
raising when the file is unreadable or malformed.  We model the artifact
as a record with one `Option` per key (`none` = key missing), and the
file handed to `load_checkpoint` as `Option CheckpointData` (`none` = the
`open`/`json.load` step raised); `json.dump` followed by `json.load` is
value-faithful on these payloads.
-/

structure CheckpointData where
  timestamp : Option String
  mode : Option String
  results_count : Option Nat
  request_count : Option Nat
  companies_checked : Option Nat
  companies_with_financials : Option Nat
  companies_without_financials : Option Nat
  companies_with_balance_sheet : Option Nat
  companies_without_balance_sheet : Option Nat
  industry_counts : Option (List (String × Nat))
  results : Option (List Rec)

/-- `BoomerBusinessFinder.save_checkpoint`: every key written. -/
def save_checkpoint (ts mode : String) (st : St) : CheckpointData :=
  { timestamp := some ts, mode := some mode,
    results_count := some st.results.length,
    request_count := some st.request_count,
    companies_checked := some st.companies_checked,
    companies_with_financials := some st.companies_with_financials,
    companies_without_financials := some st.companies_without_financials,
    companies_with_balance_sheet := some st.companies_with_balance_sheet,
    companies_without_balance_sheet := some st.companies_without_balance_sheet,
    industry_counts := some st.industry_counts,
    results := some st.results }

/-- `BoomerBusinessFinder.load_checkpoint`: `(success-flag, new state)`;
a missing file or undecodable snapshot leaves the state untouched and
reports `false`; otherwise every field is restored via `.get` with its
default. -/
def load_checkpoint (file : Option CheckpointData) (st : St) : Bool × St :=
  match file with
  | none => (false, st)
  | some cd =>
    (true,
     { st with
       results := cd.results.getD [],
       request_count := cd.request_count.getD 0,
       companies_checked := cd.companies_checked.getD 0,
       companies_with_financials := cd.companies_with_financials.getD 0,
       companies_without_financials := cd.companies_without_financials.getD 0,
       companies_with_balance_sheet := cd.companies_with_balance_sheet.getD 0,
       companies_without_balance_sheet := cd.companies_without_balance_sheet.getD 0,
       industry_counts := cd.industry_counts.getD [] })

/-- The all-keys-missing snapshot. -/
def CheckpointData.empty : CheckpointData :=
  ⟨none, none, none, none, none, none, none, none, none, none, none⟩

/-- C8: a checkpoint round-trip restores results, request_count, the five
per-category counters and industry_counts identically; loading a missing
or malformed snapshot reports `false` without touching the state; missing
keys are restored with their defaults. -/
theorem C8_checkpoint_roundtrip :
    (∀ (ts mode : String) (st st0 : St),
      (load_checkpoint (some (save_checkpoint ts mode st)) st0).1 = true ∧
      (load_checkpoint (some (save_checkpoint ts mode st)) st0).2.results = st.results ∧
      (load_checkpoint (some (save_checkpoint ts mode st)) st0).2.request_count = st.request_count ∧
      (load_checkpoint (some (save_checkpoint ts mode st)) st0).2.companies_checked = st.companies_checked ∧
      (load_checkpoint (some (save_checkpoint ts mode st)) st0).2.companies_with_financials = st.companies_with_financials ∧
      (load_checkpoint (some (save_checkpoint ts mode st)) st0).2.companies_without_financials = st.companies_without_financials ∧
      (load_checkpoint (some (save_checkpoint ts mode st)) st0).2.companies_with_balance_sheet = st.companies_with_balance_sheet ∧
      (load_checkpoint (some (save_checkpoint ts mode st)) st0).2.companies_without_balance_sheet = st.companies_without_balance_sheet ∧
      (load_checkpoint (some (save_checkpoint ts mode st)) st0).2.industry_counts = st.industry_counts) ∧
    (∀ st0 : St, load_checkpoint none st0 = (false, st0)) ∧
    (∀ st0 : St,
      load_checkpoint (some CheckpointData.empty) st0 =
        (true, { st0 with
          results := [], request_count := 0, companies_checked := 0,
          companies_with_financials := 0, companies_without_financials := 0,
          companies_with_balance_sheet := 0, companies_without_balance_sheet := 0,
          industry_counts := [] })) :=
  ⟨fun _ _ _ _ => ⟨rfl, rfl, rfl, rfl, rfl, rfl, rfl, rfl, rfl⟩,
   fun _ => rfl, fun _ => rfl⟩

/-!
## Concrete runs

Small concrete configurations and network oracles used to separate the
claims from the code.  `cfg*.mode_test = false` (production mode) keeps
quotas out of the way unless a claim needs them.
-/

/-- A search page with one well-formed company and one reported page. -/
def pageC1 : Json :=
  Json.obj [("results", Json.obj
    [("companies", Json.arr [Json.obj [("company", Json.obj
        [("jurisdiction_code", Json.str "gb"),
         ("company_number", Json.str "1"),
         ("name", Json.str "A")])]]),
     ("total_pages", Json.num 1)])]

def oracleC1 : Nat → HResp := fun i => if i = 0 then .ok pageC1 else .code 404

/-- Production mode with a global request budget of one. -/
def cfgC1 : Cfg := ⟨false, 0, none, 1, 3⟩

/-- Counterexample to C1 as stated: with a budget of `M = 1`, the run
issues 2 HTTP calls in total (the counter ends at 2 > 1), and the log
shows the detail fetch was issued while the counter already stood at
`1 = M` — the budget is only re-checked before search-page requests,
never before a detail fetch mid-page. -/
theorem C1_budget_exceeded_counterexample :
    cfgC1.max_requests = 1 ∧
    (run_search cfgC1 oracleC1 [("Ind", ["kw"])] St.init).1.request_count = 2 ∧
    (run_search cfgC1 oracleC1 [("Ind", ["kw"])] St.init).1.attempts = 2 ∧
    (run_search cfgC1 oracleC1 [("Ind", ["kw"])] St.init).1.log =
      [Event.searchReq 0, Event.detailCall "Ind" 0 1, Event.sleepDs 15] :=
  ⟨rfl, rfl, rfl, rfl⟩

/-- Every response is a rate-limit status. -/
def oracle429 : Nat → HResp := fun _ => .code 429

/-- Production mode with a request budget of five. -/
def cfgC6 : Cfg := ⟨false, 0, none, 5, 3⟩

/-- Counterexample to the search half of C6: on repeated 429 the search
loop retries the *same* page five times (more than `max_retries + 1 = 3`
attempts), sleeping a fixed 60 s each time (not an exponential backoff),
then stops only because the request budget is exhausted — returning
normally with *no* error recorded and no RateLimited failure of any
kind. -/
theorem C6_search_rate_limit_counterexample :
    (search_companies cfgC6 oracle429 "kw" "Ind" St.init).1.attempts = 5 ∧
    (search_companies cfgC6 oracle429 "kw" "Ind" St.init).1.request_count = 5 ∧
    (search_companies cfgC6 oracle429 "kw" "Ind" St.init).1.errors.length = 0 ∧
    (search_companies cfgC6 oracle429 "kw" "Ind" St.init).2 = Out.ret 0 ∧
    (search_companies cfgC6 oracle429 "kw" "Ind" St.init).1.log =
      [Event.searchReq 0, Event.sleepDs 600, Event.searchReq 1,
       Event.sleepDs 600, Event.searchReq 2, Event.sleepDs 600,
       Event.searchReq 3, Event.sleepDs 600, Event.searchReq 4,
       Event.sleepDs 600] ∧
    2 + 1 < 5 :=
  ⟨rfl, rfl, rfl, rfl, rfl, by decide⟩

/-- Counterexample to C7 as stated: an attempt that ends in a transport
exception does not increment the counter (the increment sits after
`requests.get`), so one attempt leaves the counter at 0. -/
theorem C7_exception_not_counted_counterexample :
    (fetch_company_details (fun _ => HResp.netExc)
      (Json.str "gb") (Json.str "1") St.init).1.attempts = 1 ∧
    (fetch_company_details (fun _ => HResp.netExc)
      (Json.str "gb") (Json.str "1") St.init).1.request_count = 0 ∧
    (fetch_company_details (fun _ => HResp.netExc)
      (Json.str "gb") (Json.str "1") St.init).1.errors.length = 1 ∧
    (fetch_company_details (fun _ => HResp.netExc)
      (Json.str "gb") (Json.str "1") St.init).2 = Out.ret none :=
  ⟨rfl, rfl, rfl, rfl⟩

/-- The single (malformed, hence skipped) item of the C9 pages. -/
def itemC9 : Json := Json.obj [("company", Json.obj [])]

/-- Result object of the C9 pages: a malformed-company item (skipped
without any detail fetch) and a reported total of ten pages. -/
def resC9 : Json :=
  Json.obj [("companies", Json.arr [itemC9]),
            ("total_pages", Json.num 10)]

def pageC9 : Json := Json.obj [("results", resC9)]

def oracleC9 : Nat → HResp := fun _ => .ok pageC9

/-- Production mode, default page cap 3, budget 500. -/
def cfgC9 : Cfg := ⟨false, 0, none, 500, 3⟩

/-- Counterexample to C9 as stated: every page reports `total_pages = 10`
and answers normally, no stopping condition ever fires (budget 3 < 500,
no quotas in production mode) and no transport failure occurs — yet
pagination ends after exactly three page requests, because of the
`max_pages` cap the claim does not list. -/
theorem C9_page_cap_counterexample :
    cfgC9.max_pages = 3 ∧
    pyGetD resC9 "total_pages" (Json.num 0) = .ok (Json.num 10) ∧
    (search_companies cfgC9 oracleC9 "kw" "Ind" St.init).1.log =
      [Event.searchReq 0, Event.sleepDs 20, Event.searchReq 1,
       Event.sleepDs 20, Event.searchReq 2, Event.sleepDs 20] ∧
    (search_companies cfgC9 oracleC9 "kw" "Ind" St.init).1.request_count = 3 ∧
    (search_companies cfgC9 oracleC9 "kw" "Ind" St.init).2 = Out.ret 0 ∧
    3 < cfgC9.max_requests ∧
    limitTotal cfgC9 (search_companies cfgC9 oracleC9 "kw" "Ind" St.init).1 = false ∧
    limitIndustry cfgC9 "Ind"
      (search_companies cfgC9 oracleC9 "kw" "Ind" St.init).1 = false :=
  ⟨rfl, rfl, rfl, rfl, rfl, by decide, rfl, rfl⟩

def isSearchE : Event → Bool
  | .searchReq _ => true
  | _ => false

def isSleepE : Event → Bool
  | .sleepDs _ => true
  | _ => false

/-- The detail-fetch retry loop never touches the result list, the
per-category counters or the industry counts. -/
theorem fetchLoop_fields (oracle : Nat → HResp) (jur num : Json) (mr : Nat) :
    ∀ (fuel rc : Nat) (st : St),
      (fetchLoop oracle jur num mr fuel rc st).1.industry_counts = st.industry_counts ∧
      (fetchLoop oracle jur num mr fuel rc st).1.results = st.results ∧
      (fetchLoop oracle jur num mr fuel rc st).1.companies_checked = st.companies_checked ∧
      (fetchLoop oracle jur num mr fuel rc st).1.companies_with_financials = st.companies_with_financials ∧
      (fetchLoop oracle jur num mr fuel rc st).1.companies_without_financials = st.companies_without_financials ∧
      (fetchLoop oracle jur num mr fuel rc st).1.companies_with_balance_sheet = st.companies_with_balance_sheet ∧
      (fetchLoop oracle jur num mr fuel rc st).1.companies_without_balance_sheet = st.companies_without_balance_sheet := by
  intro fuel
  induction fuel with
  | zero => intro rc st; exact ⟨rfl, rfl, rfl, rfl, rfl, rfl, rfl⟩
  | succ fuel ih =>
    intro rc st
    by_cases hg : mr < rc
    · simp [fetchLoop, hg]
    · cases hresp : oracle st.attempts with
      | ok body =>
        cases h1 : pyGetD body "results" (Json.obj []) with
        | error e => simp [fetchLoop, hg, hresp, h1, bumpA, bumpRC]
        | ok r =>
          cases h2 : pyGetD r "company" (Json.obj []) with
          | error e => simp [fetchLoop, hg, hresp, h1, h2, bumpA, bumpRC]
          | ok c => simp [fetchLoop, hg, hresp, h1, h2, bumpA, bumpRC]
      | code c =>
        by_cases h429 : c = 429
        · subst h429
          simpa [fetchLoop, hg, hresp, bumpA, bumpRC, logEv] using
            ih (rc + 1) (logEv (.sleepDs (20 * 2 ^ rc)) (bumpRC (bumpA st)))
        · by_cases h404 : c = 404
          · subst h404
            simp [fetchLoop, hg, hresp, bumpA, bumpRC, addErr]
          · by_cases hretry : rc < mr
            · simpa [fetchLoop, hg, hresp, h429, h404, hretry, bumpA, bumpRC,
                logEv] using
                ih (rc + 1) (logEv (.sleepDs 20) (bumpRC (bumpA st)))
            · simp [fetchLoop, hg, hresp, h429, h404, hretry, bumpA, bumpRC,
                addErr]
      | timeout =>
        by_cases hretry : rc < mr
        · simpa [fetchLoop, hg, hresp, hretry, bumpA, logEv] using
            ih (rc + 1) (logEv (.sleepDs 20) (bumpA st))
        · simp [fetchLoop, hg, hresp, hretry, bumpA, addErr]
      | netExc => simp [fetchLoop, hg, hresp, bumpA, addErr]

/-- The detail-fetch retry loop only appends sleep events to the log. -/
theorem fetchLoop_log (oracle : Nat → HResp) (jur num : Json) (mr : Nat) :
    ∀ (fuel rc : Nat) (st : St),
      ∃ l, (fetchLoop oracle jur num mr fuel rc st).1.log = st.log ++ l ∧
        ∀ e ∈ l, isSleepE e = true := by
  intro fuel
  induction fuel with
  | zero => intro rc st; exact ⟨[], by simp [fetchLoop], by simp⟩
  | succ fuel ih =>
    intro rc st
    by_cases hg : mr < rc
    · exact ⟨[], by simp [fetchLoop, hg], by simp⟩
    · cases hresp : oracle st.attempts with
      | ok body =>
        cases h1 : pyGetD body "results" (Json.obj []) with
        | error e =>
          exact ⟨[], by simp [fetchLoop, hg, hresp, h1, bumpA, bumpRC], by simp⟩
        | ok r =>
          cases h2 : pyGetD r "company" (Json.obj []) with
          | error e =>
            exact ⟨[], by simp [fetchLoop, hg, hresp, h1, h2, bumpA, bumpRC],
              by simp⟩
          | ok c =>
            exact ⟨[], by simp [fetchLoop, hg, hresp, h1, h2, bumpA, bumpRC],
              by simp⟩
      | code c =>
        by_cases h429 : c = 429
        · subst h429
          obtain ⟨l, hl, hall⟩ :=
            ih (rc + 1) (logEv (.sleepDs (20 * 2 ^ rc)) (bumpRC (bumpA st)))
          refine ⟨Event.sleepDs (20 * 2 ^ rc) :: l, ?_, ?_⟩
          · have heq : fetchLoop oracle jur num mr (fuel + 1) rc st =
                fetchLoop oracle jur num mr fuel (rc + 1)
                  (logEv (.sleepDs (20 * 2 ^ rc)) (bumpRC (bumpA st))) := by
              simp [fetchLoop, hg, hresp]
            rw [heq, hl]
            simp [logEv, bumpA, bumpRC]
          · intro e he
            rcases List.mem_cons.mp he with rfl | he
            · rfl
            · exact hall e he
        · by_cases h404 : c = 404
          · subst h404
            exact ⟨[], by simp [fetchLoop, hg, hresp, h429, bumpA, bumpRC,
              addErr], by simp⟩
          · by_cases hretry : rc < mr
            · obtain ⟨l, hl, hall⟩ :=
                ih (rc + 1) (logEv (.sleepDs 20) (bumpRC (bumpA st)))
              refine ⟨Event.sleepDs 20 :: l, ?_, ?_⟩
              · have heq : fetchLoop oracle jur num mr (fuel + 1) rc st =
                    fetchLoop oracle jur num mr fuel (rc + 1)
                      (logEv (.sleepDs 20) (bumpRC (bumpA st))) := by
                  simp [fetchLoop, hg, hresp, h429, h404, hretry]
                rw [heq, hl]
                simp [logEv, bumpA, bumpRC]
              · intro e he
                rcases List.mem_cons.mp he with rfl | he
                · rfl
                · exact hall e he
            · exact ⟨[], by simp [fetchLoop, hg, hresp, h429, h404, hretry,
                bumpA, bumpRC, addErr], by simp⟩
      | timeout =>
        by_cases hretry : rc < mr
        · obtain ⟨l, hl, hall⟩ := ih (rc + 1) (logEv (.sleepDs 20) (bumpA st))
          refine ⟨Event.sleepDs 20 :: l, ?_, ?_⟩
          · have heq : fetchLoop oracle jur num mr (fuel + 1) rc st =
                fetchLoop oracle jur num mr fuel (rc + 1)
                  (logEv (.sleepDs 20) (bumpA st)) := by
              simp [fetchLoop, hg, hresp, hretry]
            rw [heq, hl]
            simp [logEv, bumpA]
          · intro e he
            rcases List.mem_cons.mp he with rfl | he
            · rfl
            · exact hall e he
        · exact ⟨[], by simp [fetchLoop, hg, hresp, hretry, bumpA, addErr],
            by simp⟩
      | netExc =>
        exact ⟨[], by simp [fetchLoop, hg, hresp, bumpA, addErr], by simp⟩

theorem icGet_icSet (l : List (String × Nat)) (k : String) (v : Nat) :
    icGet (icSet l k v) k = v := by
  induction l with
  | nil => simp [icSet, icGet, List.lookup]
  | cons p rest ih =>
    obtain ⟨k', v'⟩ := p
    by_cases h : k' = k
    · subst h
      simp [icSet, icGet, List.lookup]
    · simp only [icSet, if_neg h]
      simpa [icGet, List.lookup, show (k == k') = false by
        simpa using fun hkk => h hkk.symm] using ih

/-- Characterization of one item step: the log grows only by the item's
own detail-fetch call (tagged with the per-industry count and request
counter at issuance), the fetch's sleeps and the fixed 1.5 s sleep; the
industry counts are unchanged or bumped by one for this industry. -/
theorem processItem_spec (oracle : Nat → HResp) (kw ind : String) (cd : Json)
    (st : St) :
    ∃ l, (processItem oracle kw ind cd st).1.log = st.log ++ l ∧
      (∀ e ∈ l, isSearchE e = false) ∧
      (∀ e ∈ l, ∀ i c rc, e = Event.detailCall i c rc →
        i = ind ∧ c = icGet st.industry_counts ind) ∧
      ((processItem oracle kw ind cd st).1.industry_counts = st.industry_counts ∨
       (processItem oracle kw ind cd st).1.industry_counts =
         icSet st.industry_counts ind (icGet st.industry_counts ind + 1)) := by
  unfold processItem
  cases h1 : pyGetD cd "company" (Json.obj []) with
  | error e => exact ⟨[], by simp, by simp, by simp, Or.inl rfl⟩
  | ok company =>
  dsimp only
  cases h2 : pyGetD company "jurisdiction_code" (Json.str "") with
  | error e => exact ⟨[], by simp, by simp, by simp, Or.inl rfl⟩
  | ok jur =>
  dsimp only
  cases h3 : pyGetD company "company_number" (Json.str "") with
  | error e => exact ⟨[], by simp, by simp, by simp, Or.inl rfl⟩
  | ok num =>
  dsimp only
  cases h4 : pyGetD company "name" (Json.str "Unknown") with
  | error e => exact ⟨[], by simp, by simp, by simp, Or.inl rfl⟩
  | ok nm =>
  dsimp only
  by_cases hskip : (decide (truthy jur = false) || decide (truthy num = false)) = true
  · rw [if_pos hskip]
    exact ⟨[], by simp, by simp, by simp, Or.inl rfl⟩
  · rw [if_neg hskip]
    cases hF : fetch_company_details oracle jur num
      (logEv (Event.detailCall ind
          (icGet ({ st with companies_checked := st.companies_checked + 1 } : St).industry_counts ind)
          ({ st with companies_checked := st.companies_checked + 1 } : St).request_count)
        { st with companies_checked := st.companies_checked + 1 }) with
    | mk st3 o =>
    set st2 : St := logEv (Event.detailCall ind (icGet st.industry_counts ind)
      st.request_count) { st with companies_checked := st.companies_checked + 1 }
      with hst2
    have hF2 : fetch_company_details oracle jur num st2 = (st3, o) := hF
    obtain ⟨lf, hlf, hsleep⟩ := fetchLoop_log oracle jur num 2 4 0 st2
    have hfields := fetchLoop_fields oracle jur num 2 4 0 st2
    rw [show fetchLoop oracle jur num 2 4 0 st2 =
      fetch_company_details oracle jur num st2 from rfl, hF2] at hlf hfields
    have hic3 : st3.industry_counts = st.industry_counts := hfields.1
    set ev : Event := Event.detailCall ind (icGet st.industry_counts ind)
      st.request_count with hev
    have hlog3 : st3.log = st.log ++ (ev :: lf) := by
      simpa [hst2, logEv] using hlf
    have hsrch : ∀ e ∈ lf, isSearchE e = false := by
      intro e he
      have hs := hsleep e he
      cases e with
      | searchReq rc => exact Bool.noConfusion hs
      | detailCall i c rc => exact Bool.noConfusion hs
      | sleepDs ds => rfl
    have hdet : ∀ e ∈ lf, ∀ i c rc, e = Event.detailCall i c rc → False := by
      intro e he i c rc hecase
      subst hecase
      exact Bool.noConfusion (hsleep _ he)
    have hlprops : ∀ e ∈ ev :: (lf ++ [Event.sleepDs 15]),
        isSearchE e = false ∧
        (∀ i c rc, e = Event.detailCall i c rc →
          i = ind ∧ c = icGet st.industry_counts ind) := by
      intro e he
      rcases List.mem_cons.mp he with rfl | he
      · refine ⟨rfl, ?_⟩
        intro i c rc hecase
        rw [hev] at hecase
        cases hecase
        exact ⟨rfl, rfl⟩
      · rcases List.mem_append.mp he with he | he
        · exact ⟨hsrch e he, fun i c rc hecase =>
            absurd (hdet e he i c rc hecase) (by simp)⟩
        · rcases List.mem_singleton.mp he with rfl
          exact ⟨rfl, by simp⟩
    have hlpropsShort : ∀ e ∈ ev :: lf,
        isSearchE e = false ∧
        (∀ i c rc, e = Event.detailCall i c rc →
          i = ind ∧ c = icGet st.industry_counts ind) := by
      intro e he
      refine hlprops e ?_
      rcases List.mem_cons.mp he with rfl | he
      · exact List.mem_cons_self _ _
      · exact List.mem_cons_of_mem _ (List.mem_append_left _ he)
    cases o with
    | crash =>
      exact ⟨ev :: lf, by simpa using hlog3,
        fun e he => (hlpropsShort e he).1,
        fun e he => (hlpropsShort e he).2, Or.inl hic3⟩
    | ret details =>
      dsimp only
      cases hhf : has_financial_data details with
      | error e =>
        exact ⟨ev :: (lf ++ [Event.sleepDs 15]), by simp [logEv, hlog3],
          fun e he => (hlprops e he).1,
          fun e he => (hlprops e he).2, Or.inl (by simpa [logEv] using hic3)⟩
      | ok pfin =>
        dsimp only
        obtain ⟨hasFin, finData⟩ := pfin
        cases hasFin with
        | false =>
          exact ⟨ev :: (lf ++ [Event.sleepDs 15]), by simp [logEv, hlog3],
            fun e he => (hlprops e he).1,
            fun e he => (hlprops e he).2, Or.inl (by simpa [logEv] using hic3)⟩
        | true =>
          dsimp only
          cases hbs : has_balance_sheet_data finData with
          | error e =>
            exact ⟨ev :: (lf ++ [Event.sleepDs 15]), by simp [logEv, hlog3],
              fun e he => (hlprops e he).1,
              fun e he => (hlprops e he).2,
              Or.inl (by simpa [logEv] using hic3)⟩
          | ok pbs =>
            dsimp only
            obtain ⟨hasBS, assetInfo⟩ := pbs
            cases hasBS with
            | false =>
              exact ⟨ev :: (lf ++ [Event.sleepDs 15]), by simp [logEv, hlog3],
                fun e he => (hlprops e he).1,
                fun e he => (hlprops e he).2,
                Or.inl (by simpa [logEv] using hic3)⟩
            | true =>
              dsimp only
              cases assetInfo with
              | none =>
                exact ⟨ev :: (lf ++ [Event.sleepDs 15]), by simp [logEv, hlog3],
                  fun e he => (hlprops e he).1,
                  fun e he => (hlprops e he).2,
                  Or.inl (by simpa [logEv] using hic3)⟩
              | some ai =>
                dsimp only
                cases hx : extract_company_info company kw ind details finData with
                | none =>
                  exact ⟨ev :: (lf ++ [Event.sleepDs 15]), by simp [logEv, hlog3],
                    fun e he => (hlprops e he).1,
                    fun e he => (hlprops e he).2,
                    Or.inl (by simpa [logEv] using hic3)⟩
                | some r0 =>
                  dsimp only
                  refine ⟨ev :: (lf ++ [Event.sleepDs 15]), ?_, 
                    fun e he => (hlprops e he).1,
                    fun e he => (hlprops e he).2, Or.inr ?_⟩
                  · simp [logEv, hlog3]
                  · show icSet st3.industry_counts ind
                      (icGet st3.industry_counts ind + 1) =
                      icSet st.industry_counts ind (icGet st.industry_counts ind + 1)
                    rw [hic3]

/-- C10: a company whose detail fetch returns `None` (404, exhausted
retries, or a transport exception) is still counted in
`companies_checked`, classified as having no financial data, counted in
`companies_without_financials`, and never appended to the results — the
without-financials counter cannot distinguish fetch failures from a
genuine absence of disclosures. -/
theorem C10_fetch_none_counted_as_no_financials (oracle : Nat → HResp)
    (kw ind : String) (cd company jur num nm : Json) (st st3 : St)
    (h1 : pyGetD cd "company" (Json.obj []) = .ok company)
    (h2 : pyGetD company "jurisdiction_code" (Json.str "") = .ok jur)
    (h3 : pyGetD company "company_number" (Json.str "") = .ok num)
    (h4 : pyGetD company "name" (Json.str "Unknown") = .ok nm)
    (hjur : truthy jur = true) (hnum : truthy num = true)
    (hfetch : fetch_company_details oracle jur num
      (logEv (Event.detailCall ind (icGet st.industry_counts ind)
        st.request_count)
        { st with companies_checked := st.companies_checked + 1 }) =
      (st3, Out.ret none)) :
    (processItem oracle kw ind cd st).2 = Out.ret () ∧
    (processItem oracle kw ind cd st).1.companies_checked =
      st.companies_checked + 1 ∧
    (processItem oracle kw ind cd st).1.companies_without_financials =
      st.companies_without_financials + 1 ∧
    (processItem oracle kw ind cd st).1.companies_with_financials =
      st.companies_with_financials ∧
    (processItem oracle kw ind cd st).1.results = st.results := by
  have hfields := fetchLoop_fields oracle jur num 2 4 0
    (logEv (Event.detailCall ind (icGet st.industry_counts ind)
      st.request_count)
      { st with companies_checked := st.companies_checked + 1 })
  rw [show fetchLoop oracle jur num 2 4 0 _ =
    fetch_company_details oracle jur num _ from rfl, hfetch] at hfields
  obtain ⟨hic3, hres3, hchk3, hcwf3, hcwof3, -, -⟩ := hfields
  simp only [logEv] at hic3 hres3 hchk3 hcwf3 hcwof3
  have hstep : processItem oracle kw ind cd st =
      ({ (logEv (Event.sleepDs 15) st3) with
         companies_without_financials :=
           (logEv (Event.sleepDs 15) st3).companies_without_financials + 1 },
       Out.ret ()) := by
    unfold processItem
    rw [h1]
    dsimp only
    rw [h2]
    dsimp only
    rw [h3]
    dsimp only
    rw [h4]
    dsimp only
    rw [if_neg (by simp [hjur, hnum])]
    rw [hfetch]
    rfl
  rw [hstep]
  refine ⟨rfl, ?_, ?_, ?_, ?_⟩ <;> simp [logEv, hchk3, hcwof3, hcwf3, hres3]

/-- The network answers 404 to everything. -/
def oracle404 : Nat → HResp := fun _ => .code 404

/-- A well-formed search item for the C10 witness. -/
def cdC10 : Json :=
  Json.obj [("company", Json.obj
    [("jurisdiction_code", Json.str "gb"), ("company_number", Json.str "77")])]

/-- Witness for C10: a 404 detail fetch still counts the company as
checked and without financials, and appends nothing. -/
theorem C10_fetch_none_counted_witness :
    (processItem oracle404 "kw" "Ind" cdC10 St.init).2 = Out.ret () ∧
    (processItem oracle404 "kw" "Ind" cdC10 St.init).1.companies_checked =
      St.init.companies_checked + 1 ∧
    (processItem oracle404 "kw" "Ind" cdC10 St.init).1.companies_without_financials =
      St.init.companies_without_financials + 1 ∧
    (processItem oracle404 "kw" "Ind" cdC10 St.init).1.companies_with_financials =
      St.init.companies_with_financials ∧
    (processItem oracle404 "kw" "Ind" cdC10 St.init).1.results = St.init.results :=
  C10_fetch_none_counted_as_no_financials oracle404 "kw" "Ind" cdC10
    (Json.obj [("jurisdiction_code", Json.str "gb"),
               ("company_number", Json.str "77")])
    (Json.str "gb") (Json.str "77") (Json.str "Unknown") St.init
    (fetch_company_details oracle404 (Json.str "gb") (Json.str "77")
      (logEv (Event.detailCall "Ind" (icGet St.init.industry_counts "Ind")
        St.init.request_count)
        { St.init with companies_checked := St.init.companies_checked + 1 })).1
    rfl rfl rfl rfl rfl rfl rfl

/-- The per-industry quota invariant for test mode: the industry's count
never exceeds the target, and every detail fetch logged for this industry
was issued while the count was still strictly below the target. -/
def QuotaInv (N : Nat) (ind : String) (st : St) : Prop :=
  icGet st.industry_counts ind ≤ N ∧
  ∀ e ∈ st.log, ∀ c rc, e = Event.detailCall ind c rc → c < N

theorem QuotaInv_logEv {N : Nat} {ind : String} {st : St} {e : Event}
    (he : ∀ c rc, e = Event.detailCall ind c rc → c < N)
    (h : QuotaInv N ind st) : QuotaInv N ind (logEv e st) := by
  refine ⟨h.1, ?_⟩
  intro e' he' c rc hcase
  rcases List.mem_append.mp he' with hm | hm
  · exact h.2 e' hm c rc hcase
  · rcases List.mem_singleton.mp hm with rfl
    exact he c rc hcase

theorem itemsLoop_quota (cfg : Cfg) (oracle : Nat → HResp) (kw ind : String)
    (hmode : cfg.mode_test = true) :
    ∀ (items : List Json) (st : St), QuotaInv cfg.target_per_industry ind st →
      QuotaInv cfg.target_per_industry ind
        (itemsLoop cfg oracle kw ind items st).1 := by
  intro items
  induction items with
  | nil => intro st h; exact h
  | cons cd rest ih =>
    intro st h
    by_cases hT : limitTotal cfg st = true
    · simpa [itemsLoop, hT] using h
    · by_cases hI : limitIndustry cfg ind st = true
      · simp only [itemsLoop, hT, hI]
        simpa using h
      · have hlt : icGet st.industry_counts ind < cfg.target_per_industry := by
          have := hI
          simp [limitIndustry, hmode] at this
          omega
        obtain ⟨l, hlog, -, hdet, hic⟩ := processItem_spec oracle kw ind cd st
        have hinv1 : QuotaInv cfg.target_per_industry ind
            (processItem oracle kw ind cd st).1 := by
          constructor
          · rcases hic with hic | hic
            · rw [hic]; exact h.1
            · rw [hic, icGet_icSet]; omega
          · intro e he c rc hcase
            rw [hlog] at he
            rcases List.mem_append.mp he with hm | hm
            · exact h.2 e hm c rc hcase
            · have := (hdet e hm _ _ _ hcase).2
              subst hcase
              omega
        simp only [itemsLoop, hT, hI]
        simp only [Bool.false_eq_true, if_false]
        cases hP : processItem oracle kw ind cd st with
        | mk st1 o =>
          rw [hP] at hinv1
          cases o with
          | crash => exact hinv1
          | ret u => exact ih st1 hinv1

theorem searchLoop_quota (cfg : Cfg) (oracle : Nat → HResp) (kw ind : String)
    (hmode : cfg.mode_test = true) :
    ∀ (fuel page : Nat) (st : St), QuotaInv cfg.target_per_industry ind st →
      QuotaInv cfg.target_per_industry ind
        (searchLoop cfg oracle kw ind fuel page st).1 := by
  intro fuel
  induction fuel with
  | zero => intro page st h; exact h
  | succ fuel ih =>
    intro page st h
    simp only [searchLoop]
    by_cases hc : (decide (page ≤ cfg.max_pages) &&
        decide (st.request_count < cfg.max_requests)) = false
    · rw [if_pos hc]; exact h
    · rw [if_neg hc]
      by_cases hT : limitTotal cfg st = true
      · rw [if_pos hT]; exact h
      · rw [if_neg hT]
        by_cases hI : limitIndustry cfg ind st = true
        · rw [if_pos hI]; exact h
        · rw [if_neg hI]
          have h0 : QuotaInv cfg.target_per_industry ind
              (logEv (.searchReq st.request_count) (bumpA st)) :=
            QuotaInv_logEv (fun c rc hcase => Event.noConfusion hcase) h
          cases hresp : oracle st.attempts with
          | ok body =>
            dsimp only
            have h1 : QuotaInv cfg.target_per_industry ind
                (bumpRC (logEv (.searchReq st.request_count) (bumpA st))) := h0
            cases hr1 : pyContains body "results" with
            | error e => exact h1
            | ok cres =>
              dsimp only
              by_cases hcres : cres = false
              · subst hcres; exact h1
              · rw [if_neg hcres]
                cases hr2 : pyIndex body "results" with
                | error e => exact h1
                | ok r =>
                  dsimp only
                  cases hr3 : pyContains r "companies" with
                  | error e => exact h1
                  | ok ccomp =>
                    dsimp only
                    by_cases hccomp : ccomp = false
                    · subst hccomp; exact h1
                    · rw [if_neg hccomp]
                      cases hr4 : pyIndex r "companies" with
                      | error e => exact h1
                      | ok companiesJ =>
                        dsimp only
                        by_cases htr : truthy companiesJ = false
                        · rw [if_pos htr]; exact h1
                        · rw [if_neg htr]
                          cases hr5 : pyIter companiesJ with
                          | error e => exact h1
                          | ok items =>
                            dsimp only
                            have h2 := itemsLoop_quota cfg oracle kw ind hmode
                              items _ h1
                            cases hIL : itemsLoop cfg oracle kw ind items
                                (bumpRC (logEv (.searchReq st.request_count)
                                  (bumpA st))) with
                            | mk st2 o =>
                              rw [hIL] at h2
                              cases o with
                              | crash => exact h2
                              | ret u =>
                                dsimp only
                                by_cases hT2 : limitTotal cfg st2 = true
                                · rw [if_pos hT2]; exact h2
                                · rw [if_neg hT2]
                                  by_cases hI2 : limitIndustry cfg ind st2 = true
                                  · rw [if_pos hI2]; exact h2
                                  · rw [if_neg hI2]
                                    cases hr6 : pyGetD body "results" (Json.obj []) with
                                    | error e => exact h2
                                    | ok rr =>
                                      dsimp only
                                      cases hr7 : pyGetD rr "total_pages" (Json.num 0) with
                                      | error e => exact h2
                                      | ok tp =>
                                        dsimp only
                                        cases hr8 : pyGeNum page tp with
                                        | error e => exact h2
                                        | ok ge =>
                                          dsimp only
                                          by_cases hge : ge = true
                                          · rw [if_pos hge]; exact h2
                                          · rw [if_neg hge]
                                            exact ih (page + 1) _
                                              (QuotaInv_logEv
                                                (fun c rc hcase =>
                                                  Event.noConfusion hcase) h2)
          | code c =>
            dsimp only
            by_cases h429 : c = 429
            · subst h429
              rw [if_pos rfl]
              exact ih page _
                (QuotaInv_logEv (fun c rc hcase => Event.noConfusion hcase) h0)
            · rw [if_neg h429]; exact h0
          | timeout => exact h0
          | netExc => exact h0

/-- C3: in test mode, with a per-industry target `N`, a keyword traversal
starting from a state respecting the quota invariant never lifts the
industry's accepted-record count above `N`, and every detail fetch it ever
logs for that industry was issued while the count was still below `N` —
the quota is re-checked before each item, so the stop happens even
mid-page. -/
theorem C3_industry_quota (cfg : Cfg) (oracle : Nat → HResp)
    (kw ind : String) (st : St) (hmode : cfg.mode_test = true)
    (hstart : icGet st.industry_counts ind ≤ cfg.target_per_industry)
    (hlog : ∀ e ∈ st.log, ∀ c rc, e = Event.detailCall ind c rc →
      c < cfg.target_per_industry) :
    icGet (search_companies cfg oracle kw ind st).1.industry_counts ind ≤
      cfg.target_per_industry ∧
    ∀ e ∈ (search_companies cfg oracle kw ind st).1.log, ∀ c rc,
      e = Event.detailCall ind c rc → c < cfg.target_per_industry := by
  have h : QuotaInv cfg.target_per_industry ind st := ⟨hstart, hlog⟩
  unfold search_companies
  by_cases hI : limitIndustry cfg ind st = true
  · rw [if_pos hI]; exact h
  · rw [if_neg hI]
    by_cases hT : limitTotal cfg st = true
    · rw [if_pos hT]; exact h
    · rw [if_neg hT]
      have h1 := searchLoop_quota cfg oracle kw ind hmode cfg.max_requests 1 st h
      cases hSL : searchLoop cfg oracle kw ind cfg.max_requests 1 st with
      | mk st1 o =>
        rw [hSL] at h1
        cases o with
        | crash => exact h1
        | ret u => exact h1

/-- Test mode with a per-industry target of two. -/
def cfg3 : Cfg := ⟨true, 2, some 50, 500, 3⟩

/-- One well-formed search item. -/
def itemN (n : String) : Json :=
  Json.obj [("company", Json.obj
    [("jurisdiction_code", Json.str "gb"), ("company_number", Json.str n)])]

/-- A page of three candidate companies, one reported page. -/
def pageBody3 : Json :=
  Json.obj [("results", Json.obj
    [("companies", Json.arr [itemN "1", itemN "2", itemN "3"]),
     ("total_pages", Json.num 1)])]

/-- A detail payload with balance-sheet evidence. -/
def detailBody3 : Json :=
  Json.obj [("results", Json.obj [("company", Json.obj
    [("financial_summary", Json.obj
      [("current_assets", Json.arr [Json.null])])])])]

def oracle3 : Nat → HResp :=
  fun i => if i = 0 then .ok pageBody3 else .ok detailBody3

/-- Witness for C3 on the spec's scenario (quota 2, three candidates on
one page). -/
theorem C3_industry_quota_witness :
    icGet (search_companies cfg3 oracle3 "kw" "Ind" St.init).1.industry_counts
      "Ind" ≤ cfg3.target_per_industry ∧
    ∀ e ∈ (search_companies cfg3 oracle3 "kw" "Ind" St.init).1.log, ∀ c rc,
      e = Event.detailCall "Ind" c rc → c < cfg3.target_per_industry :=
  C3_industry_quota cfg3 oracle3 "kw" "Ind" St.init rfl (by decide)
    (by simp [St.init])

/-- Concrete run showing the mid-page stop: with a quota of two and three
candidates on the page, exactly two detail fetches are issued and two
records accepted; the third candidate is never fetched. -/
theorem quota_midpage_stop_example :
    (search_companies cfg3 oracle3 "kw" "Ind" St.init).1.results.length = 2 ∧
    ((search_companies cfg3 oracle3 "kw" "Ind" St.init).1.log.filter
      (fun e => !isSleepE e && !isSearchE e)).length = 2 ∧
    icGet (search_companies cfg3 oracle3 "kw" "Ind" St.init).1.industry_counts
      "Ind" = 2 :=
  ⟨rfl, rfl, rfl⟩

/-- Every search-page request ever logged was issued while the request
counter was still strictly below the budget. -/
def SearchBudgetOk (M : Nat) (st : St) : Prop :=
  ∀ e ∈ st.log, ∀ rc, e = Event.searchReq rc → rc < M

theorem SearchBudgetOk_logEv {M : Nat} {st : St} {e : Event}
    (he : ∀ rc, e = Event.searchReq rc → rc < M)
    (h : SearchBudgetOk M st) : SearchBudgetOk M (logEv e st) := by
  intro e' he' rc hcase
  rcases List.mem_append.mp he' with hm | hm
  · exact h e' hm rc hcase
  · rcases List.mem_singleton.mp hm with rfl
    exact he rc hcase

theorem fetch_SearchBudgetOk {M : Nat} (oracle : Nat → HResp)
    (jur num : Json) (st : St) (h : SearchBudgetOk M st) :
    SearchBudgetOk M (fetch_company_details oracle jur num st).1 := by
  obtain ⟨l, hl, hsleep⟩ := fetchLoop_log oracle jur num 2 4 0 st
  intro e he rc hcase
  rw [show (fetch_company_details oracle jur num st).1.log =
    (fetchLoop oracle jur num 2 4 0 st).1.log from rfl, hl] at he
  rcases List.mem_append.mp he with hm | hm
  · exact h e hm rc hcase
  · subst hcase
    exact absurd (hsleep _ hm) (by simp [isSleepE])

theorem processItem_SearchBudgetOk {M : Nat} (oracle : Nat → HResp)
    (kw ind : String) (cd : Json) (st : St) (h : SearchBudgetOk M st) :
    SearchBudgetOk M (processItem oracle kw ind cd st).1 := by
  obtain ⟨l, hl, hns, -, -⟩ := processItem_spec oracle kw ind cd st
  intro e he rc hcase
  rw [hl] at he
  rcases List.mem_append.mp he with hm | hm
  · exact h e hm rc hcase
  · subst hcase
    exact absurd (hns _ hm) (by simp [isSearchE])

theorem itemsLoop_SearchBudgetOk {M : Nat} (cfg : Cfg) (oracle : Nat → HResp)
    (kw ind : String) :
    ∀ (items : List Json) (st : St), SearchBudgetOk M st →
      SearchBudgetOk M (itemsLoop cfg oracle kw ind items st).1 := by
  intro items
  induction items with
  | nil => intro st h; exact h
  | cons cd rest ih =>
    intro st h
    by_cases hT : limitTotal cfg st = true
    · simpa [itemsLoop, hT] using h
    · by_cases hI : limitIndustry cfg ind st = true
      · simp only [itemsLoop, hT, hI]
        simpa using h
      · have h1 := processItem_SearchBudgetOk (M := M) oracle kw ind cd st h
        simp only [itemsLoop, hT, hI]
        simp only [Bool.false_eq_true, if_false]
        cases hP : processItem oracle kw ind cd st with
        | mk st1 o =>
          rw [hP] at h1
          cases o with
          | crash => exact h1
          | ret u => exact ih st1 h1

theorem searchLoop_SearchBudgetOk (cfg : Cfg) (oracle : Nat → HResp)
    (kw ind : String) :
    ∀ (fuel page : Nat) (st : St), SearchBudgetOk cfg.max_requests st →
      SearchBudgetOk cfg.max_requests
        (searchLoop cfg oracle kw ind fuel page st).1 := by
  intro fuel
  induction fuel with
  | zero => intro page st h; exact h
  | succ fuel ih =>
    intro page st h
    simp only [searchLoop]
    by_cases hc : (decide (page ≤ cfg.max_pages) &&
        decide (st.request_count < cfg.max_requests)) = false
    · rw [if_pos hc]; exact h
    · rw [if_neg hc]
      have hlt : st.request_count < cfg.max_requests := by
        by_contra hx
        exact hc (by simp [hx])
      have h0 : SearchBudgetOk cfg.max_requests
          (logEv (.searchReq st.request_count) (bumpA st)) :=
        SearchBudgetOk_logEv
          (fun rc hcase => by cases hcase; exact hlt) h
      by_cases hT : limitTotal cfg st = true
      · rw [if_pos hT]; exact h
      · rw [if_neg hT]
        by_cases hI : limitIndustry cfg ind st = true
        · rw [if_pos hI]; exact h
        · rw [if_neg hI]
          cases hresp : oracle st.attempts with
          | ok body =>
            dsimp only
            have h1 : SearchBudgetOk cfg.max_requests
                (bumpRC (logEv (.searchReq st.request_count) (bumpA st))) := h0
            cases hr1 : pyContains body "results" with
            | error e => exact h1
            | ok cres =>
              dsimp only
              by_cases hcres : cres = false
              · subst hcres; exact h1
              · rw [if_neg hcres]
                cases hr2 : pyIndex body "results" with
                | error e => exact h1
                | ok r =>
                  dsimp only
                  cases hr3 : pyContains r "companies" with
                  | error e => exact h1
                  | ok ccomp =>
                    dsimp only
                    by_cases hccomp : ccomp = false
                    · subst hccomp; exact h1
                    · rw [if_neg hccomp]
                      cases hr4 : pyIndex r "companies" with
                      | error e => exact h1
                      | ok companiesJ =>
                        dsimp only
                        by_cases htr : truthy companiesJ = false
                        · rw [if_pos htr]; exact h1
                        · rw [if_neg htr]
                          cases hr5 : pyIter companiesJ with
                          | error e => exact h1
                          | ok items =>
                            dsimp only
                            have h2 := itemsLoop_SearchBudgetOk
                              (M := cfg.max_requests) cfg oracle kw ind items _ h1
                            cases hIL : itemsLoop cfg oracle kw ind items
                                (bumpRC (logEv (.searchReq st.request_count)
                                  (bumpA st))) with
                            | mk st2 o =>
                              rw [hIL] at h2
                              cases o with
                              | crash => exact h2
                              | ret u =>
                                dsimp only
                                by_cases hT2 : limitTotal cfg st2 = true
                                · rw [if_pos hT2]; exact h2
                                · rw [if_neg hT2]
                                  by_cases hI2 : limitIndustry cfg ind st2 = true
                                  · rw [if_pos hI2]; exact h2
                                  · rw [if_neg hI2]
                                    cases hr6 : pyGetD body "results" (Json.obj []) with
                                    | error e => exact h2
                                    | ok rr =>
                                      dsimp only
                                      cases hr7 : pyGetD rr "total_pages" (Json.num 0) with
                                      | error e => exact h2
                                      | ok tp =>
                                        dsimp only
                                        cases hr8 : pyGeNum page tp with
                                        | error e => exact h2
                                        | ok ge =>
                                          dsimp only
                                          by_cases hge : ge = true
                                          · rw [if_pos hge]; exact h2
                                          · rw [if_neg hge]
                                            exact ih (page + 1) _
                                              (SearchBudgetOk_logEv
                                                (fun rc hcase =>
                                                  Event.noConfusion hcase) h2)
          | code c =>
            dsimp only
            by_cases h429 : c = 429
            · subst h429
              rw [if_pos rfl]
              exact ih page _
                (SearchBudgetOk_logEv
                  (fun rc hcase => Event.noConfusion hcase) h0)
            · rw [if_neg h429]; exact h0
          | timeout => exact h0
          | netExc => exact h0

/-- C1 (amended): the request budget gates only search-page requests —
along any run, every search-page request in the log was issued while the
counter was still below `max_requests` (detail fetches inside an
already-fetched page are not gated and can push the counter past the
budget, as the counterexample run shows). -/
theorem C1_search_requests_budgeted (cfg : Cfg) (oracle : Nat → HResp)
    (industries : List (String × List String)) (st : St)
    (h : SearchBudgetOk cfg.max_requests st) :
    SearchBudgetOk cfg.max_requests
      (run_search cfg oracle industries st).1 := by
  have hkw : ∀ (ind : String) (kws : List String) (st : St),
      SearchBudgetOk cfg.max_requests st →
      SearchBudgetOk cfg.max_requests (keywordLoop cfg oracle ind kws st).1 := by
    intro ind kws
    induction kws with
    | nil => intro st h; exact h
    | cons kw rest ih =>
      intro st h
      simp only [keywordLoop]
      by_cases hb : decide (cfg.max_requests ≤ st.request_count) = true
      · rw [if_pos hb]; exact h
      · rw [if_neg hb]
        by_cases hT : limitTotal cfg st = true
        · rw [if_pos hT]; exact h
        · rw [if_neg hT]
          by_cases hI : limitIndustry cfg ind st = true
          · rw [if_pos hI]; exact h
          · rw [if_neg hI]
            have hsc : SearchBudgetOk cfg.max_requests
                (search_companies cfg oracle kw ind st).1 := by
              unfold search_companies
              rw [if_neg hI, if_neg hT]
              have h1 := searchLoop_SearchBudgetOk cfg oracle kw ind
                cfg.max_requests 1 st h
              cases hSL : searchLoop cfg oracle kw ind cfg.max_requests 1 st with
              | mk st1 o =>
                rw [hSL] at h1
                cases o with
                | crash => exact h1
                | ret u => exact h1
            cases hSC : search_companies cfg oracle kw ind st with
            | mk st1 o =>
              rw [hSC] at hsc
              cases o with
              | crash => exact hsc
              | ret n => exact ih st1 hsc
  induction industries generalizing st with
  | nil => exact h
  | cons p rest ih =>
    obtain ⟨ind, kws⟩ := p
    have h1 := hkw ind kws st h
    show SearchBudgetOk cfg.max_requests (industryLoop cfg oracle ((ind, kws) :: rest) st).1
    simp only [industryLoop]
    cases hKL : keywordLoop cfg oracle ind kws st with
    | mk st1 o =>
      rw [hKL] at h1
      cases o with
      | crash => exact h1
      | ret u =>
        dsimp only
        by_cases hb : decide (cfg.max_requests ≤ st1.request_count) = true
        · rw [if_pos hb]; exact h1
        · rw [if_neg hb]
          by_cases hT : limitTotal cfg st1 = true
          · rw [if_pos hT]; exact h1
          · rw [if_neg hT]
            exact ih st1 h1

/-- Witness for the amended C1 on the concrete over-budget run. -/
theorem C1_search_requests_budgeted_witness :
    SearchBudgetOk cfgC1.max_requests
      (run_search cfgC1 oracleC1 [("Ind", ["kw"])] St.init).1 :=
  C1_search_requests_budgeted cfgC1 oracleC1 [("Ind", ["kw"])] St.init
    (by simp [SearchBudgetOk, St.init])

/-- C6 (amended), part A: on three successive 429 responses a detail
fetch sleeps `2·2^k` seconds (`20·2^k` deciseconds) before each of its
`max_retries = 2` retries, then returns `None` silently: the counter
reflects the three attempts and *no* error is recorded (the `errors`
field of the state is untouched). -/
theorem fetch_429_exhaustion (oracle : Nat → HResp) (jur num : Json)
    (st : St)
    (h0 : oracle st.attempts = HResp.code 429)
    (h1 : oracle (st.attempts + 1) = HResp.code 429)
    (h2 : oracle (st.attempts + 1 + 1) = HResp.code 429) :
    fetch_company_details oracle jur num st =
      ({ st with
         attempts := st.attempts + 1 + 1 + 1,
         request_count := st.request_count + 1 + 1 + 1,
         log := st.log ++ [Event.sleepDs 20] ++ [Event.sleepDs 40] ++
           [Event.sleepDs 80] }, Out.ret none) := by
  unfold fetch_company_details
  unfold fetchLoop
  rw [if_neg (by omega)]
  rw [h0]
  dsimp only
  rw [if_pos rfl]
  unfold fetchLoop
  rw [if_neg (by omega)]
  simp only [logEv, bumpRC, bumpA]
  rw [h1]
  dsimp only
  rw [if_pos rfl]
  unfold fetchLoop
  rw [if_neg (by omega)]
  simp only [logEv, bumpRC, bumpA]
  rw [h2]
  dsimp only
  rw [if_pos rfl]
  unfold fetchLoop
  rw [if_pos (by omega)]
  rfl

/-- C6 (amended), part B: with a network that always answers 429, the
pagination loop keeps retrying the same page (there is no retry cap for
search calls) until the `while` guard stops it, and it ends *normally*:
no error is recorded and no failure of any kind is returned. -/
theorem search_429_no_failure (cfg : Cfg) (oracle : Nat → HResp)
    (kw ind : String) (hall : ∀ i, oracle i = HResp.code 429) :
    ∀ (fuel page : Nat) (st : St),
      (searchLoop cfg oracle kw ind fuel page st).1.errors = st.errors ∧
      (searchLoop cfg oracle kw ind fuel page st).2 = Out.ret () := by
  intro fuel
  induction fuel with
  | zero => intro page st; exact ⟨rfl, rfl⟩
  | succ fuel ih =>
    intro page st
    simp only [searchLoop]
    by_cases hc : (decide (page ≤ cfg.max_pages) &&
        decide (st.request_count < cfg.max_requests)) = false
    · rw [if_pos hc]; exact ⟨rfl, rfl⟩
    · rw [if_neg hc]
      by_cases hT : limitTotal cfg st = true
      · rw [if_pos hT]; exact ⟨rfl, rfl⟩
      · rw [if_neg hT]
        by_cases hI : limitIndustry cfg ind st = true
        · rw [if_pos hI]; exact ⟨rfl, rfl⟩
        · rw [if_neg hI]
          rw [hall st.attempts]
          dsimp only
          rw [if_pos rfl]
          exact ih page _

/-- Which oracle outcomes are HTTP responses (a status line was
received), as opposed to attempts that raised before any response. -/
def isHttpResp : HResp → Bool
  | .ok _ => true
  | .code _ => true
  | .timeout => false
  | .netExc => false

/-- Number of indices in `[a, a+n)` whose oracle outcome is an HTTP
response. -/
def respCount (oracle : Nat → HResp) : Nat → Nat → Nat
  | _, 0 => 0
  | a, n + 1 =>
    (if isHttpResp (oracle a) then 1 else 0) + respCount oracle (a + 1) n

/-- The retry loop's counter bookkeeping: over the attempts it consumes,
`request_count` grows by exactly the number of attempts that yielded an
HTTP response. -/
theorem fetchLoop_respCount (oracle : Nat → HResp) (jur num : Json)
    (mr : Nat) :
    ∀ (fuel rc : Nat) (st : St), ∃ n,
      (fetchLoop oracle jur num mr fuel rc st).1.attempts = st.attempts + n ∧
      (fetchLoop oracle jur num mr fuel rc st).1.request_count =
        st.request_count + respCount oracle st.attempts n := by
  intro fuel
  induction fuel with
  | zero => intro rc st; exact ⟨0, rfl, rfl⟩
  | succ fuel ih =>
    intro rc st
    by_cases hg : mr < rc
    · exact ⟨0, by simp [fetchLoop, hg], by simp [fetchLoop, hg, respCount]⟩
    · cases hresp : oracle st.attempts with
      | ok body =>
        cases h1 : pyGetD body "results" (Json.obj []) with
        | error e =>
          exact ⟨1, by simp [fetchLoop, hg, hresp, h1, bumpA, bumpRC],
            by simp [fetchLoop, hg, hresp, h1, bumpA, bumpRC, respCount,
              isHttpResp]⟩
        | ok r =>
          cases h2 : pyGetD r "company" (Json.obj []) with
          | error e =>
            exact ⟨1, by simp [fetchLoop, hg, hresp, h1, h2, bumpA, bumpRC],
              by simp [fetchLoop, hg, hresp, h1, h2, bumpA, bumpRC, respCount,
                isHttpResp]⟩
          | ok c =>
            exact ⟨1, by simp [fetchLoop, hg, hresp, h1, h2, bumpA, bumpRC],
              by simp [fetchLoop, hg, hresp, h1, h2, bumpA, bumpRC, respCount,
                isHttpResp]⟩
      | code c =>
        by_cases h429 : c = 429
        · subst h429
          obtain ⟨n, ha, hr⟩ :=
            ih (rc + 1) (logEv (.sleepDs (20 * 2 ^ rc)) (bumpRC (bumpA st)))
          refine ⟨n + 1, ?_, ?_⟩
          · have heq : fetchLoop oracle jur num mr (fuel + 1) rc st =
                fetchLoop oracle jur num mr fuel (rc + 1)
                  (logEv (.sleepDs (20 * 2 ^ rc)) (bumpRC (bumpA st))) := by
              simp [fetchLoop, hg, hresp]
            rw [heq, ha]
            simp [logEv, bumpA, bumpRC]
            omega
          · have heq : fetchLoop oracle jur num mr (fuel + 1) rc st =
                fetchLoop oracle jur num mr fuel (rc + 1)
                  (logEv (.sleepDs (20 * 2 ^ rc)) (bumpRC (bumpA st))) := by
              simp [fetchLoop, hg, hresp]
            rw [heq, hr]
            simp [logEv, bumpA, bumpRC, respCount, hresp, isHttpResp]
            omega
        · by_cases h404 : c = 404
          · subst h404
            exact ⟨1, by simp [fetchLoop, hg, hresp, h429, bumpA, bumpRC, addErr],
              by simp [fetchLoop, hg, hresp, h429, bumpA, bumpRC, addErr,
                respCount, isHttpResp]⟩
          · by_cases hretry : rc < mr
            · obtain ⟨n, ha, hr⟩ :=
                ih (rc + 1) (logEv (.sleepDs 20) (bumpRC (bumpA st)))
              refine ⟨n + 1, ?_, ?_⟩
              · have heq : fetchLoop oracle jur num mr (fuel + 1) rc st =
                    fetchLoop oracle jur num mr fuel (rc + 1)
                      (logEv (.sleepDs 20) (bumpRC (bumpA st))) := by
                  simp [fetchLoop, hg, hresp, h429, h404, hretry]
                rw [heq, ha]
                simp [logEv, bumpA, bumpRC]
                omega
              · have heq : fetchLoop oracle jur num mr (fuel + 1) rc st =
                    fetchLoop oracle jur num mr fuel (rc + 1)
                      (logEv (.sleepDs 20) (bumpRC (bumpA st))) := by
                  simp [fetchLoop, hg, hresp, h429, h404, hretry]
                rw [heq, hr]
                simp [logEv, bumpA, bumpRC, respCount, hresp, isHttpResp]
                omega
            · exact ⟨1, by simp [fetchLoop, hg, hresp, h429, h404, hretry,
                bumpA, bumpRC, addErr],
                by simp [fetchLoop, hg, hresp, h429, h404, hretry, bumpA,
                  bumpRC, addErr, respCount, isHttpResp]⟩
      | timeout =>
        by_cases hretry : rc < mr
        · obtain ⟨n, ha, hr⟩ := ih (rc + 1) (logEv (.sleepDs 20) (bumpA st))
          refine ⟨n + 1, ?_, ?_⟩
          · have heq : fetchLoop oracle jur num mr (fuel + 1) rc st =
                fetchLoop oracle jur num mr fuel (rc + 1)
                  (logEv (.sleepDs 20) (bumpA st)) := by
              simp [fetchLoop, hg, hresp, hretry]
            rw [heq, ha]
            simp [logEv, bumpA]
            omega
          · have heq : fetchLoop oracle jur num mr (fuel + 1) rc st =
                fetchLoop oracle jur num mr fuel (rc + 1)
                  (logEv (.sleepDs 20) (bumpA st)) := by
              simp [fetchLoop, hg, hresp, hretry]
            rw [heq, hr]
            simp [logEv, bumpA, respCount, hresp, isHttpResp]
        · exact ⟨1, by simp [fetchLoop, hg, hresp, hretry, bumpA, addErr],
            by simp [fetchLoop, hg, hresp, hretry, bumpA, addErr, respCount,
              isHttpResp]⟩
      | netExc =>
        exact ⟨1, by simp [fetchLoop, hg, hresp, bumpA, addErr],
          by simp [fetchLoop, hg, hresp, bumpA, addErr, respCount, isHttpResp]⟩

/-- C6 (amended): on 429 a *detail* fetch waits `2·2^retry` seconds and
retries at most `max_retries = 2` times, then silently returns `None`
with no error recorded; a *search* call on 429 sleeps 60 s and retries
the same page for as long as the budget allows — it is never turned into
a failure of any kind and records no error. -/
theorem C6_rate_limit_amended :
    (∀ (oracle : Nat → HResp) (jur num : Json) (st : St),
      oracle st.attempts = HResp.code 429 →
      oracle (st.attempts + 1) = HResp.code 429 →
      oracle (st.attempts + 1 + 1) = HResp.code 429 →
      fetch_company_details oracle jur num st =
        ({ st with
           attempts := st.attempts + 1 + 1 + 1,
           request_count := st.request_count + 1 + 1 + 1,
           log := st.log ++ [Event.sleepDs 20] ++ [Event.sleepDs 40] ++
             [Event.sleepDs 80] }, Out.ret none)) ∧
    (∀ (cfg : Cfg) (oracle : Nat → HResp) (kw ind : String)
      (fuel page : Nat) (st : St), (∀ i, oracle i = HResp.code 429) →
      (searchLoop cfg oracle kw ind fuel page st).1.errors = st.errors ∧
      (searchLoop cfg oracle kw ind fuel page st).2 = Out.ret ()) :=
  ⟨fetch_429_exhaustion,
   fun cfg oracle kw ind fuel page st hall =>
     search_429_no_failure cfg oracle kw ind hall fuel page st⟩

/-- Witness for the amended C6 at concrete inputs. -/
theorem C6_rate_limit_amended_witness :
    fetch_company_details oracle429 (Json.str "gb") (Json.str "9") St.init =
      ({ St.init with
         attempts := St.init.attempts + 1 + 1 + 1,
         request_count := St.init.request_count + 1 + 1 + 1,
         log := St.init.log ++ [Event.sleepDs 20] ++ [Event.sleepDs 40] ++
           [Event.sleepDs 80] }, Out.ret none) ∧
    (searchLoop cfgC6 oracle429 "kw" "Ind" 1 1 St.init).1.errors =
      St.init.errors ∧
    (searchLoop cfgC6 oracle429 "kw" "Ind" 1 1 St.init).2 = Out.ret () :=
  ⟨C6_rate_limit_amended.1 oracle429 (Json.str "gb") (Json.str "9") St.init
    rfl rfl rfl,
   (C6_rate_limit_amended.2 cfgC6 oracle429 "kw" "Ind" 1 1 St.init
     (fun _ => rfl)).1,
   (C6_rate_limit_amended.2 cfgC6 oracle429 "kw" "Ind" 1 1 St.init
     (fun _ => rfl)).2⟩

/-- Helper for the 429-then-200 scenario of C7. -/
theorem fetch_429_then_200 (oracle : Nat → HResp) (jur num : Json)
    (st : St) (body : Json)
    (h429 : oracle st.attempts = HResp.code 429)
    (hok : oracle (st.attempts + 1) = HResp.ok body) :
    (fetch_company_details oracle jur num st).1.request_count =
      st.request_count + 2 := by
  unfold fetch_company_details fetchLoop
  rw [if_neg (by omega), h429]
  dsimp only
  rw [if_pos rfl]
  unfold fetchLoop
  rw [if_neg (by omega)]
  simp only [logEv, bumpRC, bumpA]
  rw [hok]
  dsimp only
  cases h1 : pyGetD body "results" (Json.obj []) with
  | error e => simp
  | ok r =>
    dsimp only
    cases h2 : pyGetD r "company" (Json.obj []) with
    | error e => simp
    | ok cc => simp

/-- C7 (amended): each attempt that receives an HTTP response (any
status) increments the global counter exactly once; attempts that raise
(timeout, transport exception) do not increment it, because the increment
sits after `requests.get`.  In particular a 429 followed by a 200 leaves
the counter increased by exactly two. -/
theorem C7_counter_per_response (oracle : Nat → HResp) (jur num : Json)
    (st : St) :
    (∃ n, (fetch_company_details oracle jur num st).1.attempts =
        st.attempts + n ∧
      (fetch_company_details oracle jur num st).1.request_count =
        st.request_count + respCount oracle st.attempts n) ∧
    (∀ body : Json, oracle st.attempts = HResp.code 429 →
      oracle (st.attempts + 1) = HResp.ok body →
      (fetch_company_details oracle jur num st).1.request_count =
        st.request_count + 2) :=
  ⟨fetchLoop_respCount oracle jur num 2 4 0 st,
   fun body h429 hok => fetch_429_then_200 oracle jur num st body h429 hok⟩

/-- A 429 followed by 200-with-empty-body responses. -/
def oracle42 : Nat → HResp :=
  fun i => if i = 0 then .code 429 else .ok (Json.obj [])

/-- Witness for the amended C7: the 429-then-200 scenario increments the
counter by exactly two. -/
theorem C7_counter_per_response_witness :
    (∃ n, (fetch_company_details oracle42 (Json.str "gb") (Json.str "5")
        St.init).1.attempts = St.init.attempts + n ∧
      (fetch_company_details oracle42 (Json.str "gb") (Json.str "5")
        St.init).1.request_count =
        St.init.request_count + respCount oracle42 St.init.attempts n) ∧
    (∀ body : Json, oracle42 St.init.attempts = HResp.code 429 →
      oracle42 (St.init.attempts + 1) = HResp.ok body →
      (fetch_company_details oracle42 (Json.str "gb") (Json.str "5")
        St.init).1.request_count = St.init.request_count + 2) :=
  C7_counter_per_response oracle42 (Json.str "gb") (Json.str "5") St.init

/-- C9 (amended): pagination never stops for an unlisted reason.  When,
at a loop head, the page is within the per-keyword cap, the budget is not
exhausted, neither the global nor the per-industry quota has fired, the
response is a well-formed 200 page with a non-empty company list, item
processing returns without a transport-level crash, the quotas are still
untriggered afterwards, and the reported total-page count has not been
reached, the loop *continues* to the next page.  Contrapositive: the loop
ends only when the reported page count is reached, a stopping condition
fires, a transport failure or non-200 status occurs, the response is
malformed or empty, or the `max_pages` cap (absent from the original
claim) is hit. -/
theorem C9_pagination_continues (cfg : Cfg) (oracle : Nat → HResp)
    (kw ind : String) (fuel page : Nat) (st st2 : St)
    (body r companiesJ rr tp : Json) (items : List Json)
    (hpage : page ≤ cfg.max_pages)
    (hbudget : st.request_count < cfg.max_requests)
    (hT : limitTotal cfg st = false)
    (hI : limitIndustry cfg ind st = false)
    (hresp : oracle st.attempts = HResp.ok body)
    (hr1 : pyContains body "results" = .ok true)
    (hr2 : pyIndex body "results" = .ok r)
    (hr3 : pyContains r "companies" = .ok true)
    (hr4 : pyIndex r "companies" = .ok companiesJ)
    (htr : truthy companiesJ = true)
    (hr5 : pyIter companiesJ = .ok items)
    (hIL : itemsLoop cfg oracle kw ind items
      (bumpRC (logEv (.searchReq st.request_count) (bumpA st))) =
      (st2, Out.ret ()))
    (hT2 : limitTotal cfg st2 = false)
    (hI2 : limitIndustry cfg ind st2 = false)
    (hr6 : pyGetD body "results" (Json.obj []) = .ok rr)
    (hr7 : pyGetD rr "total_pages" (Json.num 0) = .ok tp)
    (hge : pyGeNum page tp = .ok false) :
    searchLoop cfg oracle kw ind (fuel + 1) page st =
      searchLoop cfg oracle kw ind fuel (page + 1) (logEv (.sleepDs 20) st2) := by
  simp only [searchLoop]
  rw [if_neg (by simp [hpage, hbudget])]
  rw [if_neg (by simp [hT])]
  rw [if_neg (by simp [hI])]
  rw [hresp]
  dsimp only
  rw [hr1]
  dsimp only
  rw [if_neg (by simp)]
  rw [hr2]
  dsimp only
  rw [hr3]
  dsimp only
  rw [if_neg (by simp)]
  rw [hr4]
  dsimp only
  rw [if_neg (by simp [htr])]
  rw [hr5]
  dsimp only
  rw [hIL]
  dsimp only
  rw [if_neg (by simp [hT2])]
  rw [if_neg (by simp [hI2])]
  rw [hr6]
  dsimp only
  rw [hr7]
  dsimp only
  rw [hge]
  dsimp only
  rw [if_neg (by simp)]

/-- Witness for the amended C9 at the concrete page-cap run: at page 1
with ten reported pages and no stopping condition, the loop moves on to
page 2. -/
theorem C9_pagination_continues_witness :
    searchLoop cfgC9 oracleC9 "kw" "Ind" 2 1 St.init =
      searchLoop cfgC9 oracleC9 "kw" "Ind" 1 2
        (logEv (.sleepDs 20)
          (itemsLoop cfgC9 oracleC9 "kw" "Ind" [itemC9]
            (bumpRC (logEv (.searchReq St.init.request_count)
              (bumpA St.init)))).1) :=
  C9_pagination_continues cfgC9 oracleC9 "kw" "Ind" 1 1 St.init
    (itemsLoop cfgC9 oracleC9 "kw" "Ind" [itemC9]
      (bumpRC (logEv (.searchReq St.init.request_count) (bumpA St.init)))).1
    pageC9 resC9 (Json.arr [itemC9]) resC9 (Json.num 10) [itemC9]
    (by decide) (by decide) rfl rfl rfl rfl rfl rfl rfl rfl rfl rfl rfl
    rfl rfl rfl rfl
